import Mathlib

/-!
Verification of the LAPSE dashboard data engine.

The development shallowly embeds the engine of the LAPSE_dashboard
repository: the CSV join (`services/dataService.ts`), the JSON join
(the unnamed `loadData` variant), the section-level filter engine and
option memos of the main `App.tsx` component, the section aggregator of
`components/LegislationList.tsx` (and the variant with a heading
fallback), the filter-state cascade (`handleFilterChange`), and the
domain-scoped keyword resolver (`filterKeywordsByDomain`).

JavaScript strings are modelled as `List Char`; `String.prototype`
operations (`toLowerCase`, `trim`, `split`, `includes`) are modelled by
executable Lean functions below.  JS `Map` objects are modelled as
association lists: `Map.set` overwrites in place (keeping the key's
first-insertion position) and `forEach` iterates in first-insertion
order, which the association-list operations reproduce exactly.
-/

namespace LAPSE

/-- JS strings, modelled as lists of characters. -/
abbrev Str := List Char

/-- Literal helper: a Lean string literal viewed as a `Str`. -/
def lit (s : String) : Str := s.toList

/-- `String.prototype.toLowerCase`, character-wise (the repository only
lower-cases ASCII metadata values). -/
def lower (s : Str) : Str := s.map Char.toLower

/-- Whitespace test used by `String.prototype.trim`. -/
def isWs (c : Char) : Bool := c.isWhitespace

/-- `String.prototype.trim`: drop whitespace from both ends. -/
def trim (s : Str) : Str := ((s.dropWhile isWs).reverse.dropWhile isWs).reverse

/-- `String.prototype.split` on a character class: pieces between
separator characters, empty pieces kept (`"".split(c)` is `[""]`). -/
def splitBy (p : Char → Bool) : Str → List Str
  | [] => [[]]
  | c :: cs =>
    if p c then [] :: splitBy p cs
    else
      match splitBy p cs with
      | [] => [[c]]
      | t :: ts => (c :: t) :: ts

/-- Separator class `;` (the JS `split(';')`). -/
def semi (c : Char) : Bool := c == ';'

/-- Separator class `[;,]` (the JS `split(/[;,]/)`). -/
def semiComma (c : Char) : Bool := c == ';' || c == ','

/-- The ubiquitous `s.split(sep).map(t => t.trim()).filter(Boolean)`. -/
def splitTrimFilter (p : Char → Bool) (s : Str) : List Str :=
  ((splitBy p s).map trim).filter (fun t => t ≠ [])

/-- `String.prototype.includes`: substring containment. -/
def includesB (hay needle : Str) : Bool := decide (needle <:+: hay)

/-- `Array.prototype.join(sep)`. -/
def joinSep (sep : Str) : List Str → Str
  | [] => []
  | [s] => s
  | s :: rest => s ++ sep ++ joinSep sep rest

/-- `Array.from(new Set(l))`: first occurrence of each element, in
order.  `seen` holds the elements already emitted. -/
def dedupAux [DecidableEq α] (seen : List α) : List α → List α
  | [] => []
  | a :: as =>
    if a ∈ seen then dedupAux seen as
    else a :: dedupAux (a :: seen) as

/-- `Array.from(new Set(l))` from an empty seen-set. -/
def dedupFirst [DecidableEq α] (l : List α) : List α := dedupAux [] l

/-- First occurrence of each element under a key function (used for the
case-insensitive canonicalisation maps of the option memos). -/
def dedupByAux [DecidableEq β] (f : α → β) (seen : List β) : List α → List α
  | [] => []
  | a :: as =>
    if f a ∈ seen then dedupByAux f seen as
    else a :: dedupByAux f (f a :: seen) as

/-- First occurrence of each element under a key function. -/
def dedupByFirst [DecidableEq β] (f : α → β) (l : List α) : List α :=
  dedupByAux f [] l

section StrLemmas

theorem mem_dedupAux [DecidableEq α] {seen : List α} {l : List α} {a : α} :
    a ∈ dedupAux seen l ↔ a ∈ l ∧ a ∉ seen := by
  induction l generalizing seen with
  | nil => simp [dedupAux]
  | cons b bs ih =>
    by_cases hb : b ∈ seen
    · simp only [dedupAux, if_pos hb, ih, List.mem_cons]
      by_cases hab : a = b
      · subst hab; simp [hb]
      · simp [hab]
    · simp only [dedupAux, if_neg hb, List.mem_cons, ih]
      by_cases hab : a = b
      · subst hab; simp [hb]
      · simp [hab]

theorem mem_dedupFirst [DecidableEq α] {l : List α} {a : α} :
    a ∈ dedupFirst l ↔ a ∈ l := by
  simp [dedupFirst, mem_dedupAux]

/-- `dedupAux` only depends on the seen-set up to membership. -/
theorem dedupAux_congr [DecidableEq α] {seen1 seen2 : List α} {l : List α}
    (h : ∀ x, x ∈ seen1 ↔ x ∈ seen2) :
    dedupAux seen1 l = dedupAux seen2 l := by
  induction l generalizing seen1 seen2 with
  | nil => rfl
  | cons b bs ih =>
    by_cases hb : b ∈ seen1
    · rw [dedupAux, dedupAux, if_pos hb, if_pos ((h b).mp hb)]
      exact ih h
    · rw [dedupAux, dedupAux, if_neg hb, if_neg (fun hc => hb ((h b).mpr hc))]
      refine congrArg (b :: ·) (ih fun x => ?_)
      simp only [List.mem_cons, h x]

theorem dedupByAux_congr [DecidableEq β] {f : α → β}
    {seen1 seen2 : List β} {l : List α}
    (h : ∀ x, x ∈ seen1 ↔ x ∈ seen2) :
    dedupByAux f seen1 l = dedupByAux f seen2 l := by
  induction l generalizing seen1 seen2 with
  | nil => rfl
  | cons b bs ih =>
    by_cases hb : f b ∈ seen1
    · rw [dedupByAux, dedupByAux, if_pos hb, if_pos ((h (f b)).mp hb)]
      exact ih h
    · rw [dedupByAux, dedupByAux, if_neg hb,
        if_neg (fun hc => hb ((h (f b)).mpr hc))]
      refine congrArg (b :: ·) (ih fun x => ?_)
      simp only [List.mem_cons, h x]

theorem lower_append (a b : Str) : lower (a ++ b) = lower a ++ lower b :=
  List.map_append _ a b

/-- The trimmed string is an infix of the original. -/
theorem trim_infix (s : Str) : trim s <:+: s := by
  have h1 : (s.dropWhile isWs).reverse.dropWhile isWs <:+ (s.dropWhile isWs).reverse :=
    List.dropWhile_suffix _
  have h2 : trim s <+: s.dropWhile isWs := by
    have := List.reverse_prefix.mpr h1
    simpa [trim] using this
  exact h2.isInfix.trans (List.dropWhile_suffix isWs).isInfix

/-- Appending text to a string can only extend what survives `trim`:
the old trimmed value is an infix of the new one. -/
theorem trim_append_infix (a b : Str) : trim a <:+: trim (a ++ b) := by
  unfold trim
  rw [List.dropWhile_append]
  by_cases ha : (a.dropWhile isWs).isEmpty
  · have : a.dropWhile isWs = [] := by simpa [List.isEmpty_iff] using ha
    simp [this]
  · rw [if_neg ha]
    rw [List.reverse_append]
    rw [List.dropWhile_append]
    by_cases hb : ((b.reverse).dropWhile isWs).isEmpty
    · rw [if_pos hb]
    · rw [if_neg hb]
      rw [List.reverse_append, List.reverse_reverse]
      have hpre : ((a.dropWhile isWs).reverse.dropWhile isWs).reverse <+:
          (a.dropWhile isWs) := by
        have h1 : (a.dropWhile isWs).reverse.dropWhile isWs <:+
            (a.dropWhile isWs).reverse := List.dropWhile_suffix _
        simpa using List.reverse_prefix.mpr h1
      exact (hpre.trans (List.prefix_append _ _)).isInfix

end StrLemmas

/-!
## Data model (main `App.tsx` variant and `services/dataService.ts`)

`LegislationItem` as produced by `dataService.loadLegislationData` and
consumed by the main `App` component and `LegislationList`.
`paragraph_id` and `legislation_id` are the `parseInt(...) || 0`
results, modelled as integers.
-/

structure Item where
  id : Str
  paragraph_id : Int
  legislation_id : Int
  jurisdiction : Str
  legislation_type : Str
  act_name : Str
  legislation_name : Str
  url : Str
  agencies : Str
  /-- Source field `section` (a Lean keyword, hence the name). -/
  sectionLabel : Str
  heading : Str
  paragraph : Str
  management_domain : Str
  mgmt_d_keyword : Str
  clause_type : Str
  clause_type_keyword : Str
  actionable_type : Str
  responsible_official : Str
  discretion_type : Str
  iucn_threat : Str
  aggregate_keywords : Str
deriving DecidableEq, Repr

/-- The main `App` component's `FilterState` (nine fields). -/
structure FilterState where
  jurisdiction : Str
  managementDomain : Str
  searchTerm : Str
  actName : Str
  legislationName : Str
  clauseType : Str
  actionableType : Str
  responsibleOfficial : Str
  discretionType : Str
deriving DecidableEq, Repr

/-- The string `"All"`. -/
def strAll : Str := lit "All"

/-!
## Filter engine (`App.tsx`, `filteredData`, lines 672-741 of the
concatenated file)
-/

/-- First-pass predicate of `filteredData`: jurisdiction, act,
legislation equality plus the type constraint (`jMatch && aMatch &&
lMatch && typeMatch`). -/
def rowPass (f : FilterState) (item : Item) : Bool :=
  let jMatch := f.jurisdiction == strAll || item.jurisdiction == f.jurisdiction
  let aMatch := f.actName == strAll || item.act_name == f.actName
  let lMatch := f.legislationName == strAll ||
    item.legislation_name == f.legislationName
  let typeMatch :=
    if f.legislationName ≠ strAll then true
    else if f.actName ≠ strAll then item.legislation_type == lit "Act"
    else true
  jMatch && aMatch && lMatch && typeMatch

/-- Section key of the filter engine:
`item.section && item.section.trim() ? item.section.trim() :
`para-${item.paragraph_id}``.  (No heading fallback.) -/
def sectionKeyApp (item : Item) : Str :=
  if trim item.sectionLabel ≠ [] then trim item.sectionLabel
  else lit "para-" ++ (toString item.paragraph_id).toList

/-- Grouping key `${item.legislation_id}|${sectionKey}` of the filter
engine.  The JS code concatenates the id and the section key with `|`;
since the decimal id contains no `|`, that string determines and is
determined by this pair, which we use as the key. -/
def groupKeyApp (item : Item) : Int × Str :=
  (item.legislation_id, sectionKeyApp item)

/-- The processed search term `filters.searchTerm.toLowerCase().trim()`. -/
def searchNeedle (f : FilterState) : Str := trim (lower f.searchTerm)

/-- The search haystack
`` `${act_name} ${legislation_name} ${heading} ${paragraph}`.toLowerCase() ``. -/
def haystack (item : Item) : Str :=
  lower (item.act_name ++ [' '] ++ item.legislation_name ++ [' '] ++
    item.heading ++ [' '] ++ item.paragraph)

/-- Case-insensitive membership of a selected value in a
semicolon-separated field:
`values.some(v => v.toLowerCase() === selected.toLowerCase())`. -/
def memberCI (field : Str) (selected : Str) : Bool :=
  (splitTrimFilter semi field).any (fun v => lower v == lower selected)

/-- The second-pass ("remaining") predicates of `filteredData`: domain
membership, free-text search and the four clause-attribute filters.
Each is skipped when its filter is `'All'` (for the search, when the
processed term is empty). -/
def matchesRest (f : FilterState) (item : Item) : Bool :=
  let domainMatch := f.managementDomain == strAll ||
    memberCI item.management_domain f.managementDomain
  let termMatch := searchNeedle f == [] ||
    includesB (haystack item) (searchNeedle f)
  let clauseMatch := f.clauseType == strAll ||
    memberCI item.clause_type f.clauseType
  let actionableMatch := f.actionableType == strAll ||
    memberCI item.actionable_type f.actionableType
  let officialMatch := f.responsibleOfficial == strAll ||
    memberCI item.responsible_official f.responsibleOfficial
  let discretionMatch := f.discretionType == strAll ||
    memberCI item.discretion_type f.discretionType
  domainMatch && termMatch && clauseMatch && actionableMatch &&
    officialMatch && discretionMatch

/-- `filteredData`: first pass, group by `(legislation_id, sectionKey)`
in first-appearance order, then include a whole group iff some member
matches the remaining predicates. -/
def applyFilters (data : List Item) (f : FilterState) : List Item :=
  let base := data.filter (rowPass f)
  let keys := dedupFirst (base.map groupKeyApp)
  keys.flatMap (fun k =>
    let group := base.filter (fun item => groupKeyApp item == k)
    if group.any (matchesRest f) then group else [])

/-- Membership in the filter result: a row survives iff it passes the
first pass and some row of its section group (under the same filter
state) matches the remaining predicates. -/
theorem mem_applyFilters {data : List Item} {f : FilterState} {r : Item} :
    r ∈ applyFilters data f ↔
      r ∈ data ∧ rowPass f r = true ∧
        ∃ m ∈ data, rowPass f m = true ∧ groupKeyApp m = groupKeyApp r ∧
          matchesRest f m = true := by
  unfold applyFilters
  simp only [List.mem_flatMap]
  constructor
  · rintro ⟨k, hk, hr⟩
    by_cases hany : (List.filter (fun item => groupKeyApp item == k)
        (data.filter (rowPass f))).any (matchesRest f) = true
    · rw [if_pos hany] at hr
      rcases List.mem_filter.mp hr with ⟨hrbase, hrkey⟩
      rcases List.mem_filter.mp hrbase with ⟨hrdata, hrpass⟩
      rcases List.any_eq_true.mp hany with ⟨m, hm, hmrest⟩
      rcases List.mem_filter.mp hm with ⟨hmbase, hmkey⟩
      rcases List.mem_filter.mp hmbase with ⟨hmdata, hmpass⟩
      refine ⟨hrdata, hrpass, m, hmdata, hmpass, ?_, hmrest⟩
      rw [eq_of_beq hmkey, eq_of_beq hrkey]
    · rw [if_neg hany] at hr
      exact absurd hr (List.not_mem_nil r)
  · rintro ⟨hrdata, hrpass, m, hmdata, hmpass, hmkey, hmrest⟩
    refine ⟨groupKeyApp r, ?_, ?_⟩
    · apply mem_dedupFirst.mpr
      exact List.mem_map.mpr ⟨r, List.mem_filter.mpr ⟨hrdata, hrpass⟩, rfl⟩
    · have hmem : m ∈ (data.filter (rowPass f)).filter
          (fun item => groupKeyApp item == groupKeyApp r) :=
        List.mem_filter.mpr ⟨List.mem_filter.mpr ⟨hmdata, hmpass⟩,
          beq_iff_eq.mpr hmkey⟩
      rw [if_pos (List.any_eq_true.mpr ⟨m, hmem, hmrest⟩)]
      exact List.mem_filter.mpr ⟨List.mem_filter.mpr ⟨hrdata, hrpass⟩,
        beq_iff_eq.mpr rfl⟩

/-!
## Monotonicity of the filter engine
-/

/-- If both passes only get harder pointwise, the filter result shrinks
(the grouping key does not depend on the filter state). -/
theorem applyFilters_subset_of_pointwise {S : List Item} {f1 f2 : FilterState}
    (hpass : ∀ i, rowPass f2 i = true → rowPass f1 i = true)
    (hrest : ∀ i, matchesRest f2 i = true → matchesRest f1 i = true) :
    ∀ r ∈ applyFilters S f2, r ∈ applyFilters S f1 := by
  intro r hr
  rcases mem_applyFilters.mp hr with ⟨hdata, hpassr, m, hmdata, hmpass, hkey, hmrest⟩
  exact mem_applyFilters.mpr
    ⟨hdata, hpass r hpassr, m, hmdata, hpass m hmpass, hkey, hrest m hmrest⟩

/-- `rowPass` ignores the six second-pass filter fields. -/
theorem rowPass_congr {f1 f2 : FilterState} (i : Item)
    (hj : f2.jurisdiction = f1.jurisdiction) (ha : f2.actName = f1.actName)
    (hl : f2.legislationName = f1.legislationName) :
    rowPass f2 i = rowPass f1 i := by
  simp only [rowPass, hj, ha, hl]

/-- `matchesRest` ignores jurisdiction, act name and legislation name. -/
theorem matchesRest_congr {f1 f2 : FilterState} (i : Item)
    (hd : f2.managementDomain = f1.managementDomain)
    (hs : f2.searchTerm = f1.searchTerm)
    (hc : f2.clauseType = f1.clauseType)
    (hat : f2.actionableType = f1.actionableType)
    (ho : f2.responsibleOfficial = f1.responsibleOfficial)
    (hdt : f2.discretionType = f1.discretionType) :
    matchesRest f2 i = matchesRest f1 i := by
  simp only [matchesRest, searchNeedle, hd, hs, hc, hat, ho, hdt]

/-- Narrowing the jurisdiction from `'All'` keeps the first pass
monotone. -/
theorem rowPass_mono_jur {f1 f2 : FilterState} (i : Item)
    (hj : f1.jurisdiction = strAll)
    (ha : f2.actName = f1.actName) (hl : f2.legislationName = f1.legislationName) :
    rowPass f2 i = true → rowPass f1 i = true := by
  intro h
  simp only [rowPass, ha, hl, Bool.and_eq_true] at h
  obtain ⟨⟨⟨-, hA⟩, hL⟩, hT⟩ := h
  simp only [rowPass, Bool.and_eq_true]
  refine ⟨⟨⟨?_, hA⟩, hL⟩, hT⟩
  simp [hj]

/-- Narrowing the act name from `'All'` keeps the first pass monotone:
the type constraint it switches on is vacuous when no act is selected. -/
theorem rowPass_mono_act {f1 f2 : FilterState} (i : Item)
    (ha : f1.actName = strAll)
    (hj : f2.jurisdiction = f1.jurisdiction)
    (hl : f2.legislationName = f1.legislationName) :
    rowPass f2 i = true → rowPass f1 i = true := by
  intro h
  simp only [rowPass, hj, hl, Bool.and_eq_true] at h
  obtain ⟨⟨⟨hJ, -⟩, hL⟩, -⟩ := h
  simp only [rowPass, Bool.and_eq_true]
  refine ⟨⟨⟨hJ, ?_⟩, hL⟩, ?_⟩
  · simp [ha]
  · by_cases hLn : f1.legislationName ≠ strAll
    · simp [hLn]
    · simp [hLn, ha]

/-- Narrowing the legislation name from `'All'` keeps the first pass
monotone, provided no act is selected (otherwise the type constraint
is lifted and rows can appear). -/
theorem rowPass_mono_leg {f1 f2 : FilterState} (i : Item)
    (hl : f1.legislationName = strAll) (ha : f1.actName = strAll)
    (hj : f2.jurisdiction = f1.jurisdiction) (hact : f2.actName = f1.actName) :
    rowPass f2 i = true → rowPass f1 i = true := by
  intro h
  simp only [rowPass, hj, hact, Bool.and_eq_true] at h
  obtain ⟨⟨⟨hJ, hA⟩, -⟩, -⟩ := h
  simp only [rowPass, Bool.and_eq_true]
  refine ⟨⟨⟨hJ, hA⟩, ?_⟩, ?_⟩
  · simp [hl]
  · simp [hl, ha]

/-- Narrowing any one of the five membership filters from `'All'` keeps
the second pass monotone. -/
theorem matchesRest_mono_field {f1 f2 : FilterState} (i : Item)
    (hsame : searchNeedle f2 = searchNeedle f1)
    (hd : f2.managementDomain = f1.managementDomain ∨ f1.managementDomain = strAll)
    (hc : f2.clauseType = f1.clauseType ∨ f1.clauseType = strAll)
    (hat : f2.actionableType = f1.actionableType ∨ f1.actionableType = strAll)
    (ho : f2.responsibleOfficial = f1.responsibleOfficial ∨
      f1.responsibleOfficial = strAll)
    (hdt : f2.discretionType = f1.discretionType ∨ f1.discretionType = strAll) :
    matchesRest f2 i = true → matchesRest f1 i = true := by
  intro h
  simp only [matchesRest, hsame, Bool.and_eq_true] at h
  obtain ⟨⟨⟨⟨⟨h1, h2⟩, h3⟩, h4⟩, h5⟩, h6⟩ := h
  simp only [matchesRest, Bool.and_eq_true]
  refine ⟨⟨⟨⟨⟨?_, h2⟩, ?_⟩, ?_⟩, ?_⟩, ?_⟩
  · rcases hd with h | h
    · rwa [h] at h1
    · simp [h]
  · rcases hc with h | h
    · rwa [h] at h3
    · simp [h]
  · rcases hat with h | h
    · rwa [h] at h4
    · simp [h]
  · rcases ho with h | h
    · rwa [h] at h5
    · simp [h]
  · rcases hdt with h | h
    · rwa [h] at h6
    · simp [h]

/-- Extending the raw search term keeps the second pass monotone: the
old processed needle is an infix of the new one, so any haystack that
contains the new needle contains the old one. -/
theorem matchesRest_mono_search {f1 f2 : FilterState} (i : Item) (ext : Str)
    (hs : f2.searchTerm = f1.searchTerm ++ ext)
    (hd : f2.managementDomain = f1.managementDomain)
    (hc : f2.clauseType = f1.clauseType)
    (hat : f2.actionableType = f1.actionableType)
    (ho : f2.responsibleOfficial = f1.responsibleOfficial)
    (hdt : f2.discretionType = f1.discretionType) :
    matchesRest f2 i = true → matchesRest f1 i = true := by
  have hinfix : searchNeedle f1 <:+: searchNeedle f2 := by
    unfold searchNeedle
    rw [hs, lower_append]
    exact trim_append_infix _ _
  intro h
  simp only [matchesRest, hd, hc, hat, ho, hdt, Bool.and_eq_true] at h
  obtain ⟨⟨⟨⟨⟨h1, h2⟩, h3⟩, h4⟩, h5⟩, h6⟩ := h
  simp only [matchesRest, Bool.and_eq_true]
  refine ⟨⟨⟨⟨⟨h1, ?_⟩, h3⟩, h4⟩, h5⟩, h6⟩
  simp only [Bool.or_eq_true, beq_iff_eq] at h2 ⊢
  rcases h2 with h2 | h2
  · left
    rw [h2] at hinfix
    exact List.infix_nil.mp hinfix
  · right
    simp only [includesB, decide_eq_true_eq] at h2 ⊢
    exact hinfix.trans h2

/-- One-step narrowing of a filter state: exactly one predicate is
tightened, either a membership field moved off `'All'` or the search
term extended.  The legislation-name case additionally requires that no
act is selected, which is the amendment forced by the type constraint
of the first pass. -/
def NarrowsOne (f1 f2 : FilterState) : Prop :=
  (f1.jurisdiction = strAll ∧ ∃ v, f2 = { f1 with jurisdiction := v }) ∨
  (f1.actName = strAll ∧ ∃ v, f2 = { f1 with actName := v }) ∨
  (f1.legislationName = strAll ∧ f1.actName = strAll ∧
    ∃ v, f2 = { f1 with legislationName := v }) ∨
  (f1.managementDomain = strAll ∧ ∃ v, f2 = { f1 with managementDomain := v }) ∨
  (∃ ext, f2 = { f1 with searchTerm := f1.searchTerm ++ ext }) ∨
  (f1.clauseType = strAll ∧ ∃ v, f2 = { f1 with clauseType := v }) ∨
  (f1.actionableType = strAll ∧ ∃ v, f2 = { f1 with actionableType := v }) ∨
  (f1.responsibleOfficial = strAll ∧
    ∃ v, f2 = { f1 with responsibleOfficial := v }) ∨
  (f1.discretionType = strAll ∧ ∃ v, f2 = { f1 with discretionType := v })

/-- C1 (amended): `applyFilters` is monotone under one-step narrowing
for every predicate, with the legislation-name case restricted to
`actName = 'All'`: narrowing jurisdiction, act name, management domain,
clause type, actionable type, responsible official or discretion type
from `'All'`, extending the search term, or narrowing the legislation
name while no act is selected, can only remove rows.  (Narrowing the
legislation name while an act is selected lifts the Act-only type
constraint of the first pass and can add regulation rows, see the
counterexample.) -/
theorem C1_monotone_amended {S : List Item} {f1 f2 : FilterState}
    (h : NarrowsOne f1 f2) :
    ∀ r ∈ applyFilters S f2, r ∈ applyFilters S f1 := by
  rcases h with ⟨hj, v, rfl⟩ | ⟨ha, v, rfl⟩ | ⟨hl, ha, v, rfl⟩ | ⟨hd, v, rfl⟩ |
    ⟨ext, rfl⟩ | ⟨hc, v, rfl⟩ | ⟨hat, v, rfl⟩ | ⟨ho, v, rfl⟩ | ⟨hdt, v, rfl⟩
  · refine applyFilters_subset_of_pointwise
      (fun i => rowPass_mono_jur i hj rfl rfl) (fun i => ?_)
    rw [matchesRest_congr i rfl rfl rfl rfl rfl rfl]
    exact id
  · refine applyFilters_subset_of_pointwise
      (fun i => rowPass_mono_act i ha rfl rfl) (fun i => ?_)
    rw [matchesRest_congr i rfl rfl rfl rfl rfl rfl]
    exact id
  · refine applyFilters_subset_of_pointwise
      (fun i => rowPass_mono_leg i hl ha rfl rfl) (fun i => ?_)
    rw [matchesRest_congr i rfl rfl rfl rfl rfl rfl]
    exact id
  · refine applyFilters_subset_of_pointwise (fun i => ?_)
      (fun i => matchesRest_mono_field i rfl (Or.inr hd) (Or.inl rfl)
        (Or.inl rfl) (Or.inl rfl) (Or.inl rfl))
    rw [rowPass_congr i rfl rfl rfl]
    exact id
  · refine applyFilters_subset_of_pointwise (fun i => ?_)
      (fun i => matchesRest_mono_search i ext rfl rfl rfl rfl rfl rfl)
    rw [rowPass_congr i rfl rfl rfl]
    exact id
  · refine applyFilters_subset_of_pointwise (fun i => ?_)
      (fun i => matchesRest_mono_field i rfl (Or.inl rfl) (Or.inr hc)
        (Or.inl rfl) (Or.inl rfl) (Or.inl rfl))
    rw [rowPass_congr i rfl rfl rfl]
    exact id
  · refine applyFilters_subset_of_pointwise (fun i => ?_)
      (fun i => matchesRest_mono_field i rfl (Or.inl rfl) (Or.inl rfl)
        (Or.inr hat) (Or.inl rfl) (Or.inl rfl))
    rw [rowPass_congr i rfl rfl rfl]
    exact id
  · refine applyFilters_subset_of_pointwise (fun i => ?_)
      (fun i => matchesRest_mono_field i rfl (Or.inl rfl) (Or.inl rfl)
        (Or.inl rfl) (Or.inr ho) (Or.inl rfl))
    rw [rowPass_congr i rfl rfl rfl]
    exact id
  · refine applyFilters_subset_of_pointwise (fun i => ?_)
      (fun i => matchesRest_mono_field i rfl (Or.inl rfl) (Or.inl rfl)
        (Or.inl rfl) (Or.inl rfl) (Or.inr hdt))
    rw [rowPass_congr i rfl rfl rfl]
    exact id

/-- A regulation row: act `"X"`, regulation `"Y"`, type `"Regulation"`. -/
def c1Item : Item :=
  { id := lit "1", paragraph_id := 1, legislation_id := 1,
    jurisdiction := lit "Federal", legislation_type := lit "Regulation",
    act_name := lit "X", legislation_name := lit "Y", url := [],
    agencies := [], sectionLabel := lit "1", heading := [], paragraph := [],
    management_domain := [], mgmt_d_keyword := [], clause_type := [],
    clause_type_keyword := [], actionable_type := [],
    responsible_official := [], discretion_type := [], iucn_threat := [],
    aggregate_keywords := [] }

/-- Filter state with act `"X"` selected and everything else wide open. -/
def c1F1 : FilterState :=
  { jurisdiction := strAll, managementDomain := strAll, searchTerm := [],
    actName := lit "X", legislationName := strAll, clauseType := strAll,
    actionableType := strAll, responsibleOfficial := strAll,
    discretionType := strAll }

/-- `c1F1` narrowed on exactly one predicate: legislation name moved
from `'All'` to `"Y"`. -/
def c1F2 : FilterState := { c1F1 with legislationName := lit "Y" }

/-- C1 (counterexample): narrowing the single predicate
`legislationName` from `'All'` to `"Y"` (all other fields held fixed)
ADDS the regulation row `c1Item`: with only the act selected the type
constraint admits only `'Act'` rows, so `c1Item` is filtered out, but
once the regulation is selected the type constraint is lifted and the
row appears.  Hence `applyFilters` is not monotone as claimed. -/
theorem C1_counterexample :
    c1F1.legislationName = strAll ∧
    c1F2 = { c1F1 with legislationName := lit "Y" } ∧
    c1Item ∈ applyFilters [c1Item] c1F2 ∧
    c1Item ∉ applyFilters [c1Item] c1F1 := by decide

/-- The fully open filter state. -/
def c1FAll : FilterState :=
  { jurisdiction := strAll, managementDomain := strAll, searchTerm := [],
    actName := strAll, legislationName := strAll, clauseType := strAll,
    actionableType := strAll, responsibleOfficial := strAll,
    discretionType := strAll }

/-- Witness for the amended C1: narrowing jurisdiction from `'All'` to
`"Federal"` keeps `c1Item`, and monotonicity puts it in the unfiltered
result as well. -/
theorem C1_monotone_amended_witness :
    NarrowsOne c1FAll { c1FAll with jurisdiction := lit "Federal" } ∧
    c1Item ∈ applyFilters [c1Item] { c1FAll with jurisdiction := lit "Federal" } ∧
    c1Item ∈ applyFilters [c1Item] c1FAll :=
  ⟨Or.inl ⟨rfl, lit "Federal", rfl⟩, by decide,
    C1_monotone_amended (Or.inl ⟨rfl, lit "Federal", rfl⟩) c1Item (by decide)⟩

/-- C2: section-level promotion.  A row that survives the first pass is
in the filter result iff some member of its section group (same
legislation id and section key, also surviving the first pass) matches
all remaining predicates; and if no member matches, no row of the group
appears. -/
theorem C2_section_promotion (S : List Item) (f : FilterState) (r : Item)
    (hr : r ∈ S) (hpass : rowPass f r = true) :
    ((∃ m ∈ S, rowPass f m = true ∧ groupKeyApp m = groupKeyApp r ∧
        matchesRest f m = true) → r ∈ applyFilters S f) ∧
    ((¬ ∃ m ∈ S, rowPass f m = true ∧ groupKeyApp m = groupKeyApp r ∧
        matchesRest f m = true) → r ∉ applyFilters S f) := by
  constructor
  · intro hex
    exact mem_applyFilters.mpr ⟨hr, hpass, hex⟩
  · intro hnex hmem
    exact hnex (mem_applyFilters.mp hmem).2.2

/-- First fragment of the three-fragment section: no domain tag. -/
def c2a : Item := { c1Item with paragraph_id := 1, sectionLabel := lit "5" }

/-- Second fragment: the only one tagged `Fisheries`. -/
def c2b : Item :=
  { c1Item with
      paragraph_id := 2
      sectionLabel := lit "5"
      management_domain := lit "Fisheries" }

/-- Third fragment: no domain tag. -/
def c2c : Item := { c1Item with paragraph_id := 3, sectionLabel := lit "5" }

/-- Filter state selecting only the domain `Fisheries`. -/
def c2F : FilterState := { c1FAll with managementDomain := lit "Fisheries" }

/-- Witness for C2: in a three-fragment section where only fragment #2
carries the selected domain, all three fragments are promoted into the
result. -/
theorem C2_section_promotion_witness :
    c2a ∈ applyFilters [c2a, c2b, c2c] c2F ∧
    c2c ∈ applyFilters [c2a, c2b, c2c] c2F :=
  ⟨(C2_section_promotion [c2a, c2b, c2c] c2F c2a (by decide) (by decide)).1
      ⟨c2b, by decide, by decide, by decide, by decide⟩,
    (C2_section_promotion [c2a, c2b, c2c] c2F c2c (by decide) (by decide)).1
      ⟨c2b, by decide, by decide, by decide, by decide⟩⟩

/-!
## Filter-state updates (`handleFilterChange`, App.tsx lines 949-956)
-/

/-- The keys of `FilterState` (the `keyof FilterState` union). -/
inductive FilterKey where
  | jurisdiction | managementDomain | searchTerm | actName
  | legislationName | clauseType | actionableType
  | responsibleOfficial | discretionType
deriving DecidableEq, Repr

/-- The computed-property update `{ ...prev, [key]: value }`. -/
def setField (prev : FilterState) (key : FilterKey) (value : Str) : FilterState :=
  match key with
  | .jurisdiction => { prev with jurisdiction := value }
  | .managementDomain => { prev with managementDomain := value }
  | .searchTerm => { prev with searchTerm := value }
  | .actName => { prev with actName := value }
  | .legislationName => { prev with legislationName := value }
  | .clauseType => { prev with clauseType := value }
  | .actionableType => { prev with actionableType := value }
  | .responsibleOfficial => { prev with responsibleOfficial := value }
  | .discretionType => { prev with discretionType := value }

/-- `handleFilterChange`: spread the previous state, set the changed
key, then apply the cascading overrides (clearing the legislation name
when the act changes; clearing both act and legislation names when the
domain or jurisdiction changes). -/
def handleFilterChange (key : FilterKey) (value : Str)
    (prev : FilterState) : FilterState :=
  let s1 := setField prev key value
  let s2 := if key = .actName then { s1 with legislationName := strAll } else s1
  if key = .managementDomain ∨ key = .jurisdiction then
    { s2 with actName := strAll, legislationName := strAll }
  else s2

/-- C5: cascading reset invariant.  Setting `actName` clears
`legislationName`; setting `managementDomain` or `jurisdiction` clears
both `actName` and `legislationName`; all other fields are unchanged
(the record-update form of the right-hand sides states exactly this). -/
theorem C5_cascading_reset (prev : FilterState) (v : Str) :
    handleFilterChange .actName v prev =
      { prev with actName := v, legislationName := strAll } ∧
    handleFilterChange .managementDomain v prev =
      { prev with managementDomain := v, actName := strAll,
                  legislationName := strAll } ∧
    handleFilterChange .jurisdiction v prev =
      { prev with jurisdiction := v, actName := strAll,
                  legislationName := strAll } :=
  ⟨rfl, rfl, rfl⟩

/-!
## Section keys (C6)

Three section-key computations appear in the repository: the filter
engine (App.tsx line 694) and `LegislationList` (line 128) use the
trimmed section label with a synthetic fallback, while the variant
aggregator (`src/unnamed/part_002`, line 79) additionally falls back to
the trimmed heading.
-/

/-- JS `(s && s.trim())` coerced to a string: both falsy outcomes are
the empty string, so this is `trim` (note `trim [] = []`). -/
def jsTruthyTrim (s : Str) : Str := if s = [] then [] else trim s

/-- Section key of `LegislationList.tsx` (line 128): trimmed section
label, else the synthetic per-paragraph key; no heading fallback. -/
def sectionKeyList (item : Item) : Str :=
  if trim item.sectionLabel ≠ [] then trim item.sectionLabel
  else lit "para-" ++ (toString item.paragraph_id).toList

/-- Section key of the variant aggregator (`part_002`, line 79):
`(section && section.trim()) || (heading && heading.trim()) ||
`para-${id}``. -/
def sectionKeyGrouped (item : Item) : Str :=
  let a := jsTruthyTrim item.sectionLabel
  let b := jsTruthyTrim item.heading
  if a ≠ [] then a
  else if b ≠ [] then b
  else lit "para-" ++ (toString item.paragraph_id).toList

/-- The section key as the specification words it: trimmed section
label when non-empty, otherwise trimmed heading when non-empty,
otherwise the synthetic per-paragraph key. -/
def specSectionKey (item : Item) : Str :=
  if trim item.sectionLabel ≠ [] then trim item.sectionLabel
  else if trim item.heading ≠ [] then trim item.heading
  else lit "para-" ++ (toString item.paragraph_id).toList

theorem jsTruthyTrim_eq_trim (s : Str) : jsTruthyTrim s = trim s := by
  unfold jsTruthyTrim
  by_cases h : s = []
  · simp [h, trim, isWs]
  · simp [h]

/-- An item with a heading but no section label. -/
def c6Item : Item :=
  { c1Item with paragraph_id := 7, sectionLabel := [], heading := lit "Duties" }

/-- C6 (counterexample): on an item with an empty section label and a
non-empty heading, the filter engine and `LegislationList` fall
straight to the synthetic key, not to the trimmed heading — so the
spec's key is NOT the one used by the filter engine. -/
theorem C6_counterexample :
    sectionKeyApp c6Item = lit "para-7" ∧
    sectionKeyList c6Item = lit "para-7" ∧
    specSectionKey c6Item = lit "Duties" ∧
    sectionKeyApp c6Item ≠ specSectionKey c6Item := by decide

/-- C6 (amended): the variant aggregator's key (`part_002`) is exactly
the spec's section → heading → synthetic key; the filter engine and
`LegislationList` share a key with no heading fallback, and it agrees
with the spec's key exactly when the section label is non-blank or the
heading is blank. -/
theorem C6_section_key_amended (item : Item) :
    sectionKeyGrouped item = specSectionKey item ∧
    sectionKeyApp item = sectionKeyList item ∧
    ((trim item.sectionLabel ≠ [] ∨ trim item.heading = []) →
      sectionKeyApp item = specSectionKey item) := by
  refine ⟨?_, rfl, ?_⟩
  · unfold sectionKeyGrouped specSectionKey
    rw [jsTruthyTrim_eq_trim, jsTruthyTrim_eq_trim]
  · intro h
    unfold sectionKeyApp specSectionKey
    by_cases hs : trim item.sectionLabel ≠ []
    · simp [hs]
    · rcases h with h | h
      · exact absurd h hs
      · simp [hs, h]

/-- An item with a non-blank section label. -/
def c6ItemB : Item := { c1Item with sectionLabel := lit " 5 " }

/-- Witness for the amended C6: on an item with a non-blank section
label all three keys agree (and equal the trimmed label). -/
theorem C6_section_key_amended_witness :
    sectionKeyApp c6ItemB = specSectionKey c6ItemB ∧
    sectionKeyApp c6ItemB = lit "5" :=
  ⟨(C6_section_key_amended c6ItemB).2.2 (Or.inl (by decide)), by decide⟩

/-!
## Section aggregation (`components/LegislationList.tsx`, lines 123-186)

`[...group].sort((a, b) => a.paragraph_id - b.paragraph_id)` is a
stable sort ascending by paragraph id (ECMAScript mandates stability,
and the comparator is consistent), so its result is the unique sorted
permutation preserving the relative order of ties — which insertion
sort computes.
-/

/-- Comparator order of the aggregator's sort. -/
def pidLe (a b : Item) : Prop := a.paragraph_id ≤ b.paragraph_id

instance : DecidableRel pidLe := fun a b => Int.decLe a.paragraph_id b.paragraph_id

instance : IsTotal Item pidLe := ⟨fun a b => Int.le_total a.paragraph_id b.paragraph_id⟩

instance : IsTrans Item pidLe := ⟨fun _ _ _ h1 h2 => le_trans h1 h2⟩

/-- The aggregator's stable sort by paragraph id. -/
def sortByPid (g : List Item) : List Item := List.insertionSort pidLe g

theorem sortByPid_sorted (g : List Item) : (sortByPid g).Sorted pidLe :=
  List.sorted_insertionSort pidLe g

theorem sortByPid_perm (g : List Item) : (sortByPid g).Perm g :=
  List.perm_insertionSort pidLe g

theorem filter_orderedInsert_pos (p : Item → Bool) (x : Item) (acc : List Item)
    (hx : p x = true) (hall : ∀ z, p z = true → pidLe x z) :
    (List.orderedInsert pidLe x acc).filter p = x :: acc.filter p := by
  induction acc with
  | nil => simp [List.orderedInsert, hx]
  | cons b l ih =>
    by_cases hr : pidLe x b
    · rw [List.orderedInsert, if_pos hr]
      simp [List.filter_cons, hx]
    · rw [List.orderedInsert, if_neg hr]
      have hb : p b = false := by
        cases hpb : p b
        · rfl
        · exact absurd (hall b hpb) hr
      simp [List.filter_cons, hb, ih]

theorem filter_orderedInsert_neg (p : Item → Bool) (x : Item) (acc : List Item)
    (hx : p x = false) :
    (List.orderedInsert pidLe x acc).filter p = acc.filter p := by
  induction acc with
  | nil => simp [List.orderedInsert, hx]
  | cons b l ih =>
    by_cases hr : pidLe x b
    · rw [List.orderedInsert, if_pos hr]
      simp [List.filter_cons, hx]
    · rw [List.orderedInsert, if_neg hr]
      simp only [List.filter_cons, ih]

/-- Stability of the aggregator's sort: fragments with equal paragraph
id keep their load order (the filtered subsequence at each id value is
unchanged). -/
theorem sortByPid_stable (g : List Item) (n : Int) :
    (sortByPid g).filter (fun x => x.paragraph_id == n) =
      g.filter (fun x => x.paragraph_id == n) := by
  induction g with
  | nil => rfl
  | cons x l ih =>
    rw [sortByPid, List.insertionSort]
    rw [sortByPid] at ih
    by_cases hx : x.paragraph_id = n
    · rw [filter_orderedInsert_pos _ _ _ (by simpa using hx)
        (fun z hz => by
          have hzn : z.paragraph_id = n := by simpa using hz
          simp [pidLe, hx, hzn])]
      rw [ih]
      simp [List.filter_cons, hx]
    · rw [filter_orderedInsert_neg _ _ _ (by simpa using hx)]
      rw [ih]
      simp [List.filter_cons, hx]

/-- The `paragraphBlocks` entries of the aggregated record. -/
structure ParaBlock where
  heading : Str
  text : Str
  mgmt_d_keyword : Str
  management_domain : Str
  clause_type : Str
  clause_type_keyword : Str
deriving DecidableEq, Repr

/-- An aggregated section record: the merged item (spread of the first
sorted fragment with overridden fields) plus the ordered blocks. -/
structure AggItem where
  item : Item
  paragraphBlocks : List ParaBlock
deriving DecidableEq, Repr

/-- The per-fragment block `{heading, text, mgmt_d_keyword,
management_domain, clause_type, clause_type_keyword}`. -/
def mkBlock (p : Item) : ParaBlock :=
  { heading := p.heading, text := p.paragraph,
    mgmt_d_keyword := p.mgmt_d_keyword,
    management_domain := p.management_domain,
    clause_type := p.clause_type,
    clause_type_keyword := p.clause_type_keyword }

/-- One group's aggregation (`LegislationList.tsx` lines 137-186):
stable-sort by paragraph id, merge headings (distinct non-empty trimmed
headings joined `" | "`, falling back to the first fragment's raw
heading), concatenate the distinct split values of the multi-value
fields, and join the non-blank bodies with a blank line.  Groups are
non-empty by construction; the empty list maps to `none`. -/
def aggregateGroup (g : List Item) : Option AggItem :=
  match sortByPid g with
  | [] => none
  | first :: rest =>
    let sorted := first :: rest
    let headingCandidates :=
      ((sorted.map (fun p => p.heading)).filter (fun h => h ≠ [])).map trim
    let uniqueHeadings := dedupFirst (headingCandidates.filter (fun h => h ≠ []))
    let displayHeading :=
      if uniqueHeadings ≠ [] then joinSep (lit " | ") uniqueHeadings
      else first.heading
    let allDomains :=
      dedupFirst (sorted.flatMap (fun p => splitTrimFilter semiComma p.management_domain))
    let allKeywords :=
      dedupFirst (sorted.flatMap (fun p => splitTrimFilter semi p.mgmt_d_keyword))
    let allIucnThreats :=
      dedupFirst (sorted.flatMap (fun p => splitTrimFilter semiComma p.iucn_threat))
    let allClauseTypes :=
      dedupFirst (sorted.flatMap (fun p => splitTrimFilter semi p.clause_type))
    let allDiscretionTypes :=
      dedupFirst (sorted.flatMap (fun p => splitTrimFilter semi p.discretion_type))
    some
      { item :=
          { first with
              heading := displayHeading
              management_domain := joinSep (lit ";") allDomains
              mgmt_d_keyword := joinSep (lit "; ") allKeywords
              iucn_threat := joinSep (lit ";") allIucnThreats
              clause_type := joinSep (lit ";") allClauseTypes
              discretion_type := joinSep (lit ";") allDiscretionTypes
              paragraph := joinSep (lit "\n\n")
                ((sorted.map (fun p => p.paragraph)).filter (fun p => trim p ≠ [])) }
        paragraphBlocks := sorted.map mkBlock }

/-- Grouping key of `LegislationList` (legislation id with its section
key). -/
def groupKeyList (item : Item) : Int × Str :=
  (item.legislation_id, sectionKeyList item)

/-- Claim-side: the ordered distinct non-empty trimmed headings. -/
def distinctHeadings (l : List Item) : List Str :=
  dedupFirst ((((l.map (fun p => p.heading)).filter (fun h => h ≠ [])).map trim).filter
    (fun h => h ≠ []))

/-- Claim-side: union of distinct split domain values, first occurrence
kept (exact, case-sensitive comparison). -/
def mergedDomains (l : List Item) : List Str :=
  dedupFirst (l.flatMap (fun p => splitTrimFilter semiComma p.management_domain))

/-- Claim-side: union of distinct split keyword values. -/
def mergedKeywords (l : List Item) : List Str :=
  dedupFirst (l.flatMap (fun p => splitTrimFilter semi p.mgmt_d_keyword))

/-- Claim-side: union of distinct split threat values. -/
def mergedThreats (l : List Item) : List Str :=
  dedupFirst (l.flatMap (fun p => splitTrimFilter semiComma p.iucn_threat))

/-- Claim-side: union of distinct split clause-type values. -/
def mergedClauseTypes (l : List Item) : List Str :=
  dedupFirst (l.flatMap (fun p => splitTrimFilter semi p.clause_type))

/-- Claim-side: union of distinct split discretion-type values. -/
def mergedDiscretionTypes (l : List Item) : List Str :=
  dedupFirst (l.flatMap (fun p => splitTrimFilter semi p.discretion_type))

/-- Claim-side: ordered concatenation of non-blank bodies separated by
a blank line. -/
def mergedBody (l : List Item) : Str :=
  joinSep (lit "\n\n") ((l.map (fun p => p.paragraph)).filter (fun p => trim p ≠ []))

/-- The merge the claim describes for domains: case-insensitive dedup
keeping the first-seen casing. -/
def mergedDomainsCI (l : List Item) : List Str :=
  dedupByFirst lower (l.flatMap (fun p => splitTrimFilter semiComma p.management_domain))

/-- Fragment tagged `Fisheries`. -/
def c7i1 : Item :=
  { c1Item with
      paragraph_id := 1
      sectionLabel := lit "9"
      management_domain := lit "Fisheries" }

/-- Fragment tagged `fisheries` (same value up to case). -/
def c7i2 : Item :=
  { c1Item with
      paragraph_id := 2
      sectionLabel := lit "9"
      management_domain := lit "fisheries" }

/-- C7 (counterexample): the aggregator's dedup is case-sensitive.  A
group tagged `Fisheries` and `fisheries` aggregates to the domain
string `"Fisheries;fisheries"`, not the case-insensitive union
`"Fisheries"` the claim describes. -/
theorem C7_counterexample :
    (aggregateGroup [c7i1, c7i2]).map (fun a => a.item.management_domain) =
      some (lit "Fisheries;fisheries") ∧
    joinSep (lit ";") (mergedDomainsCI [c7i1, c7i2]) = lit "Fisheries" ∧
    (aggregateGroup [c7i1, c7i2]).map (fun a => a.item.management_domain) ≠
      some (joinSep (lit ";") (mergedDomainsCI [c7i1, c7i2])) := by decide

/-- C7 (amended): for every non-empty group sharing a section key, the
aggregate sorts fragments ascending by paragraph id with ties keeping
load order; the heading is the ordered list of distinct non-empty
trimmed headings joined `" | "` (falling back to the first sorted
fragment's raw heading when there is none); domains, keywords, threats,
clause types and discretion types are each the union of distinct split
values under EXACT (case-sensitive) comparison, first occurrence kept;
and the body is the ordered concatenation of non-blank fragment bodies
separated by a blank line. -/
theorem C7_aggregation_amended (g : List Item) (first : Item) (rest : List Item)
    (hgroup : ∀ i ∈ g, groupKeyList i = groupKeyList first)
    (hsort : sortByPid g = first :: rest) :
    (sortByPid g).Sorted pidLe ∧
    (sortByPid g).Perm g ∧
    (∀ n : Int, (sortByPid g).filter (fun x => x.paragraph_id == n) =
      g.filter (fun x => x.paragraph_id == n)) ∧
    ∃ a, aggregateGroup g = some a ∧
      a.paragraphBlocks = (first :: rest).map mkBlock ∧
      a.item.heading =
        (if distinctHeadings (first :: rest) ≠ []
         then joinSep (lit " | ") (distinctHeadings (first :: rest))
         else first.heading) ∧
      a.item.management_domain = joinSep (lit ";") (mergedDomains (first :: rest)) ∧
      a.item.mgmt_d_keyword = joinSep (lit "; ") (mergedKeywords (first :: rest)) ∧
      a.item.iucn_threat = joinSep (lit ";") (mergedThreats (first :: rest)) ∧
      a.item.clause_type = joinSep (lit ";") (mergedClauseTypes (first :: rest)) ∧
      a.item.discretion_type =
        joinSep (lit ";") (mergedDiscretionTypes (first :: rest)) ∧
      a.item.paragraph = mergedBody (first :: rest) := by
  refine ⟨sortByPid_sorted g, sortByPid_perm g, sortByPid_stable g, ?_⟩
  unfold aggregateGroup
  rw [hsort]
  exact ⟨_, rfl, rfl, rfl, rfl, rfl, rfl, rfl, rfl, rfl⟩

/-- Two fragments of one section: shared heading, overlapping domains,
one blank body. -/
def c7w1 : Item :=
  { c1Item with
      paragraph_id := 2
      sectionLabel := lit "9"
      heading := lit "A"
      management_domain := lit "X;Y"
      paragraph := lit "Body1" }

/-- Second fragment (lower paragraph id, blank body). -/
def c7w2 : Item :=
  { c1Item with
      paragraph_id := 1
      sectionLabel := lit "9"
      heading := lit "A"
      management_domain := lit "Y"
      paragraph := lit " " }

/-- Witness for the amended C7 at a concrete two-fragment group: the
fragments are reordered by paragraph id, the shared heading survives
once, domains union to `Y;X` (first-seen order after sorting) and the
blank body is dropped. -/
theorem C7_aggregation_amended_witness :
    ∃ a, aggregateGroup [c7w1, c7w2] = some a ∧
      a.item.heading = lit "A" ∧
      a.item.management_domain = lit "Y;X" ∧
      a.item.paragraph = lit "Body1" ∧
      a.paragraphBlocks = [mkBlock c7w2, mkBlock c7w1] := by
  obtain ⟨-, -, -, a, ha, hblocks, hheading, hdom, -, -, -, -, hbody⟩ :=
    C7_aggregation_amended [c7w1, c7w2] c7w2 [c7w1] (by decide) (by decide)
  refine ⟨a, ha, ?_, ?_, ?_, ?_⟩
  · rw [hheading]; decide
  · rw [hdom]; decide
  · rw [hbody]; decide
  · rw [hblocks]; decide

/-!
## Contextual filter options (C8)

JS `Map`-based counting: `counts.set(k, (counts.get(k) || 0) + 1)`
updates an existing key in place (keeping its first-insertion position)
or appends a new one; `Array.from(counts.keys())` is then the
first-occurrence order of keys.
-/

/-- One `counts.set(k, (counts.get(k) || 0) + 1)` step. -/
def bump (m : List (Str × Nat)) (k : Str) : List (Str × Nat) :=
  if m.any (fun e => e.1 == k) then
    m.map (fun e => if e.1 == k then (e.1, e.2 + 1) else e)
  else m ++ [(k, 1)]

/-- Count occurrences per value (a `Map<string, number>` filled by a
`forEach`). -/
def tally (l : List Str) : List (Str × Nat) := l.foldl bump []

/-- `m.get(k)` on an association list with unique keys. -/
def lookupA (m : List (Str × α)) (k : Str) : Option α :=
  (m.find? (fun e => e.1 == k)).map (fun e => e.2)

/-- `counts.get(k) || 0`. -/
def lookupCount (m : List (Str × Nat)) (k : Str) : Nat :=
  (lookupA m k).getD 0

theorem bump_keys (m : List (Str × Nat)) (k : Str) :
    (bump m k).map (fun e => e.1) =
      if k ∈ m.map (fun e => e.1) then m.map (fun e => e.1)
      else m.map (fun e => e.1) ++ [k] := by
  unfold bump
  have hmem : (m.any (fun e => e.1 == k)) = true ↔ k ∈ m.map (fun e => e.1) := by
    simp [List.any_eq_true, List.mem_map]
  by_cases h : k ∈ m.map (fun e => e.1)
  · rw [if_pos (hmem.mpr h), if_pos h, List.map_map]
    refine List.map_congr_left fun e he => ?_
    by_cases hek : e.1 = k
    · simp [hek]
    · simp [hek]
  · rw [if_neg (fun hc => h (hmem.mp hc)), if_neg h]
    simp

theorem dedupAux_cons [DecidableEq α] (seen : List α) (a : α) (as : List α) :
    dedupAux seen (a :: as) =
      if a ∈ seen then dedupAux seen as else a :: dedupAux (a :: seen) as := rfl

theorem dedupByAux_cons [DecidableEq β] (f : α → β) (seen : List β) (a : α)
    (as : List α) :
    dedupByAux f seen (a :: as) =
      if f a ∈ seen then dedupByAux f seen as
      else a :: dedupByAux f (f a :: seen) as := rfl

theorem tally_keys_aux (l : List Str) (m : List (Str × Nat)) :
    (l.foldl bump m).map (fun e => e.1) =
      m.map (fun e => e.1) ++ dedupAux (m.map (fun e => e.1)) l := by
  induction l generalizing m with
  | nil => simp [dedupAux]
  | cons k l ih =>
    rw [List.foldl_cons, ih, dedupAux_cons]
    by_cases h : k ∈ m.map (fun e => e.1)
    · rw [bump_keys, if_pos h, if_pos h]
    · rw [bump_keys, if_neg h, if_neg h]
      have hc : dedupAux (m.map (fun e => e.1) ++ [k]) l =
          dedupAux (k :: m.map (fun e => e.1)) l :=
        dedupAux_congr fun x => by simp [or_comm]
      rw [hc, List.append_assoc, List.singleton_append]

/-- The keys of the count map are the distinct values in
first-occurrence order. -/
theorem tally_keys (l : List Str) :
    (tally l).map (fun e => e.1) = dedupFirst l := by
  simpa [tally, dedupFirst] using tally_keys_aux l []

/-- One step of the canonicalising count used for the actionable-type,
responsible-official and discretion-type memos: look up the first-seen
casing of the lower-cased value, re-store it (a no-op when present),
and count under the canonical casing. -/
def canonStep (st : List (Str × Str) × List (Str × Nat)) (t : Str) :
    List (Str × Str) × List (Str × Nat) :=
  match lookupA st.1 (lower t) with
  | some canonical => (st.1, bump st.2 canonical)
  | none => (st.1 ++ [(lower t, t)], bump st.2 t)

/-- Case-insensitive canonicalising count: distinct lower-cased values,
first-seen casing retained as the key. -/
def tallyCanon (l : List Str) : List (Str × Nat) :=
  (l.foldl canonStep ([], [])).2

theorem lookupA_repMap_none {reps : List Str} {k : Str} :
    lookupA (reps.map (fun x => (lower x, x))) k = none ↔ k ∉ reps.map lower := by
  constructor
  · intro h hk
    rcases List.mem_map.mp hk with ⟨x, hx, hxk⟩
    unfold lookupA at h
    cases hf : (reps.map (fun x => (lower x, x))).find? (fun e => e.1 == k) with
    | none =>
      have := List.find?_eq_none.mp hf (lower x, x) (List.mem_map.mpr ⟨x, hx, rfl⟩)
      simp [hxk] at this
    | some e =>
      rw [hf] at h
      simp at h
  · intro h
    have hf : (reps.map (fun x => (lower x, x))).find? (fun e => e.1 == k) =
        none := by
      refine List.find?_eq_none.mpr fun e he => ?_
      rcases List.mem_map.mp he with ⟨x, hx, rfl⟩
      simp only [beq_iff_eq]
      intro hk
      exact h (List.mem_map.mpr ⟨x, hx, hk⟩)
    unfold lookupA
    rw [hf]
    rfl

theorem lookupA_repMap_some {reps : List Str} {k : Str} {r : Str}
    (h : lookupA (reps.map (fun x => (lower x, x))) k = some r) : r ∈ reps := by
  unfold lookupA at h
  cases hf : (reps.map (fun x => (lower x, x))).find? (fun e => e.1 == k) with
  | none =>
    rw [hf] at h
    simp at h
  | some e =>
    rw [hf] at h
    have he2 : e.2 = r := by simpa using h
    rcases List.mem_map.mp (List.mem_of_find?_eq_some hf) with ⟨x, hx, hxe⟩
    have hxr : x = r := by
      rw [← he2, ← hxe]
    rw [← hxr]
    exact hx

theorem bump_keys_of_mem {m : List (Str × Nat)} {k : Str}
    (h : k ∈ m.map (fun e => e.1)) :
    (bump m k).map (fun e => e.1) = m.map (fun e => e.1) := by
  rw [bump_keys, if_pos h]

theorem bump_keys_of_not_mem {m : List (Str × Nat)} {k : Str}
    (h : k ∉ m.map (fun e => e.1)) :
    (bump m k).map (fun e => e.1) = m.map (fun e => e.1) ++ [k] := by
  rw [bump_keys, if_neg h]

theorem tallyCanon_keys_aux (l : List Str) (reps : List Str)
    (cts : List (Str × Nat)) (hcts : cts.map (fun e => e.1) = reps) :
    ((l.foldl canonStep (reps.map (fun x => (lower x, x)), cts)).2).map
        (fun e => e.1) =
      reps ++ dedupByAux lower (reps.map lower) l := by
  induction l generalizing reps cts with
  | nil => simp [dedupByAux, hcts]
  | cons t l ih =>
    rw [List.foldl_cons, dedupByAux_cons]
    by_cases h : lower t ∈ reps.map lower
    · have hlook : ∃ r, lookupA (reps.map (fun x => (lower x, x))) (lower t) =
          some r := by
        cases hl : lookupA (reps.map (fun x => (lower x, x))) (lower t) with
        | none => exact absurd (lookupA_repMap_none.mp hl) (not_not.mpr h)
        | some r => exact ⟨r, rfl⟩
      rcases hlook with ⟨r, hr⟩
      have hstep : canonStep (reps.map (fun x => (lower x, x)), cts) t =
          (reps.map (fun x => (lower x, x)), bump cts r) := by
        unfold canonStep
        rw [show lookupA (reps.map (fun x => (lower x, x)), cts).1 (lower t) =
          some r from hr]
      rw [hstep]
      have hrk : r ∈ cts.map (fun e => e.1) := by
        rw [hcts]; exact lookupA_repMap_some hr
      rw [ih reps (bump cts r) (by rw [bump_keys_of_mem hrk, hcts])]
      rw [if_pos h]
    · have hlook : lookupA (reps.map (fun x => (lower x, x))) (lower t) = none :=
        lookupA_repMap_none.mpr h
      have hstep : canonStep (reps.map (fun x => (lower x, x)), cts) t =
          ((reps ++ [t]).map (fun x => (lower x, x)), bump cts t) := by
        unfold canonStep
        rw [show lookupA (reps.map (fun x => (lower x, x)), cts).1 (lower t) =
          none from hlook]
        simp
      rw [hstep]
      have htk : t ∉ cts.map (fun e => e.1) := by
        rw [hcts]
        intro hc
        exact h (List.mem_map.mpr ⟨t, hc, rfl⟩)
      rw [ih (reps ++ [t]) (bump cts t)
        (by rw [bump_keys_of_not_mem htk, hcts])]
      rw [if_neg h]
      have hc2 : dedupByAux lower ((reps ++ [t]).map lower) l =
          dedupByAux lower (lower t :: reps.map lower) l :=
        dedupByAux_congr fun x => by simp [or_comm]
      rw [hc2, List.append_assoc, List.singleton_append]

/-- The keys of the canonicalising count map are the first-seen casings
of the distinct lower-cased values, in first-occurrence order. -/
theorem tallyCanon_keys (l : List Str) :
    (tallyCanon l).map (fun e => e.1) = dedupByFirst lower l := by
  simpa [tallyCanon, dedupByFirst] using tallyCanon_keys_aux l [] [] rfl

/-- A dropdown option `{name, count}`. -/
structure FilterOption where
  name : Str
  count : Nat
deriving DecidableEq, Repr

/-- A dropdown option with a display name (acts and legislation memos
post-process their options to add `displayName`). -/
structure FilterOptionD where
  name : Str
  displayName : Str
  count : Nat
deriving DecidableEq, Repr

/-- Lexicographic code-point order on strings, modelling the ascending
`a.localeCompare(b)` sorts.  (`localeCompare` is locale-dependent; every
property proved below depends only on the sorted list's length and
membership, which any total order gives.) -/
def strLeB : Str → Str → Bool
  | [], _ => true
  | _ :: _, [] => false
  | a :: as, b :: bs => if a = b then strLeB as bs else decide (a < b)

/-- `keys.sort((a, b) => a.localeCompare(b))`. -/
def sortStr (l : List Str) : List Str :=
  List.insertionSort (fun a b => strLeB a b = true) l

theorem sortStr_length (l : List Str) : (sortStr l).length = l.length :=
  (List.perm_insertionSort _ l).length_eq

/-- `options.sort((a, b) => a.name.localeCompare(b.name))`. -/
def sortOptions (l : List FilterOption) : List FilterOption :=
  List.insertionSort (fun a b => strLeB a.name b.name = true) l

/-- Context of the acts memo (App.tsx lines 744-749): domain membership
and jurisdiction. -/
def actsContext (data : List Item) (f : FilterState) : List Item :=
  data.filter (fun item =>
    (f.managementDomain == strAll ||
      memberCI item.management_domain f.managementDomain) &&
    (f.jurisdiction == strAll || item.jurisdiction == f.jurisdiction))

/-- `availableActs` (App.tsx lines 743-763): count rows per non-empty
act name, sort the distinct names, prepend `'All'` carrying the number
of distinct acts, then decorate with display names. -/
def availableActsC (data : List Item) (f : FilterState) : List FilterOptionD :=
  let context := actsContext data f
  let actCounts := tally ((context.map (fun i => i.act_name)).filter (fun n => n ≠ []))
  let uniqueActs := sortStr (actCounts.map (fun e => e.1))
  let result : List FilterOption :=
    ⟨strAll, uniqueActs.length⟩ ::
      uniqueActs.map (fun n => ⟨n, lookupCount actCounts n⟩)
  result.map (fun o =>
    if o.name == strAll then ⟨strAll, lit "None Selected", o.count⟩
    else ⟨o.name, o.name, o.count⟩)

/-- The regulation test of the legislation memo (App.tsx line 773). -/
def isRegulationB (lt : Str) : Bool :=
  let ty := lower lt
  (ty != lit "act") &&
    (includesB ty (lit "regulation") || includesB ty (lit "code") ||
      includesB ty (lit "order") || decide (0 < ty.length))

/-- Context of the legislation memo (App.tsx lines 766-775). -/
def legContext (data : List Item) (f : FilterState) : List Item :=
  data.filter (fun item =>
    (f.managementDomain == strAll ||
      memberCI item.management_domain f.managementDomain) &&
    (f.jurisdiction == strAll || item.jurisdiction == f.jurisdiction) &&
    (f.actName == strAll || item.act_name == f.actName) &&
    isRegulationB item.legislation_type)

/-- `availableLegislation` (App.tsx lines 765-789). -/
def availableLegislationC (data : List Item) (f : FilterState) :
    List FilterOptionD :=
  let context := legContext data f
  let regCounts :=
    tally ((context.map (fun i => i.legislation_name)).filter (fun n => n ≠ []))
  let uniqueRegs := sortStr (regCounts.map (fun e => e.1))
  let result : List FilterOption :=
    ⟨strAll, uniqueRegs.length⟩ ::
      uniqueRegs.map (fun n => ⟨n, lookupCount regCounts n⟩)
  result.map (fun o =>
    if o.name == strAll then ⟨strAll, lit "None Selected", o.count⟩
    else ⟨o.name, o.name, o.count⟩)

/-- Context shared by the clause-attribute memos (App.tsx lines
807-814 etc.): domain, jurisdiction, act and legislation. -/
def memoContext4 (data : List Item) (f : FilterState) : List Item :=
  data.filter (fun item =>
    (f.managementDomain == strAll ||
      memberCI item.management_domain f.managementDomain) &&
    (f.jurisdiction == strAll || item.jurisdiction == f.jurisdiction) &&
    (f.actName == strAll || item.act_name == f.actName) &&
    (f.legislationName == strAll ||
      item.legislation_name == f.legislationName))

/-- `availableClauseTypes` (App.tsx lines 806-825): split values,
counted with EXACT string keys. -/
def availableClauseTypesC (data : List Item) (f : FilterState) :
    List FilterOption :=
  let context := memoContext4 data f
  let counts := tally (context.flatMap (fun i => splitTrimFilter semi i.clause_type))
  let uniqueTypes := sortStr (counts.map (fun e => e.1))
  ⟨strAll, uniqueTypes.length⟩ ::
    uniqueTypes.map (fun n => ⟨n, lookupCount counts n⟩)

/-- `availableActionableTypes` (App.tsx lines 827-852): split values,
counted under case-insensitive canonical (first-seen) casing. -/
def availableActionableTypesC (data : List Item) (f : FilterState) :
    List FilterOption :=
  let context := memoContext4 data f
  let counts :=
    tallyCanon (context.flatMap (fun i => splitTrimFilter semi i.actionable_type))
  let uniqueTypes := sortStr (counts.map (fun e => e.1))
  ⟨strAll, uniqueTypes.length⟩ ::
    uniqueTypes.map (fun n => ⟨n, lookupCount counts n⟩)

/-- `availableResponsibleOfficials` (App.tsx lines 854-879). -/
def availableResponsibleOfficialsC (data : List Item) (f : FilterState) :
    List FilterOption :=
  let context := memoContext4 data f
  let counts :=
    tallyCanon (context.flatMap (fun i => splitTrimFilter semi i.responsible_official))
  let uniqueOfficials := sortStr (counts.map (fun e => e.1))
  ⟨strAll, uniqueOfficials.length⟩ ::
    uniqueOfficials.map (fun n => ⟨n, lookupCount counts n⟩)

/-- `availableDiscretionTypes` (App.tsx lines 881-906). -/
def availableDiscretionTypesC (data : List Item) (f : FilterState) :
    List FilterOption :=
  let context := memoContext4 data f
  let counts :=
    tallyCanon (context.flatMap (fun i => splitTrimFilter semi i.discretion_type))
  let uniqueTypes := sortStr (counts.map (fun e => e.1))
  ⟨strAll, uniqueTypes.length⟩ ::
    uniqueTypes.map (fun n => ⟨n, lookupCount counts n⟩)

/-- The five-field `FilterState` of the legacy variant (types.ts). -/
structure FilterStateA where
  jurisdiction : Str
  managementDomain : Str
  searchTerm : Str
  actName : Str
  legislationName : Str
deriving DecidableEq, Repr

/-- `dropdownContextData` of the legacy variant (App.tsx lines 90-96):
EXACT domain equality, jurisdiction equality. -/
def dropdownContextData (data : List Item) (fA : FilterStateA) : List Item :=
  data.filter (fun item =>
    (fA.managementDomain == strAll ||
      item.management_domain == fA.managementDomain) &&
    (fA.jurisdiction == strAll || item.jurisdiction == fA.jurisdiction))

/-- `availableActs` of the legacy variant (App.tsx lines 98-110): the
`'All'` entry carries the CONTEXT ROW COUNT, not the distinct-act
count. -/
def availableActsA (data : List Item) (fA : FilterStateA) : List FilterOption :=
  let ctx := dropdownContextData data fA
  let counts := tally ((ctx.map (fun d => d.act_name)).filter (fun n => n ≠ []))
  let options := sortOptions (counts.map (fun e => FilterOption.mk e.1 e.2))
  ⟨strAll, ctx.length⟩ :: options

/-- Context of the legacy legislation memo (App.tsx lines 113-115). -/
def legContextA (data : List Item) (fA : FilterStateA) : List Item :=
  if fA.actName == strAll then dropdownContextData data fA
  else (dropdownContextData data fA).filter (fun d => d.act_name == fA.actName)

/-- `availableLegislation` of the legacy variant (App.tsx lines
112-128): again the `'All'` count is the context row count. -/
def availableLegislationA (data : List Item) (fA : FilterStateA) :
    List FilterOption :=
  let context := legContextA data fA
  let counts :=
    tally ((context.map (fun d => d.legislation_name)).filter (fun n => n ≠ []))
  let options := sortOptions (counts.map (fun e => FilterOption.mk e.1 e.2))
  ⟨strAll, context.length⟩ :: options

/-- Claim-side: distinct non-empty act names in the acts context. -/
def distinctActsC (data : List Item) (f : FilterState) : Nat :=
  (dedupFirst (((actsContext data f).map (fun i => i.act_name)).filter
    (fun n => n ≠ []))).length

/-- Claim-side: distinct non-empty legislation names in context. -/
def distinctLegsC (data : List Item) (f : FilterState) : Nat :=
  (dedupFirst (((legContext data f).map (fun i => i.legislation_name)).filter
    (fun n => n ≠ []))).length

/-- Claim-side: distinct clause-type values (exact comparison) in
context. -/
def distinctClauseTypesC (data : List Item) (f : FilterState) : Nat :=
  (dedupFirst ((memoContext4 data f).flatMap
    (fun i => splitTrimFilter semi i.clause_type))).length

/-- Claim-side: distinct actionable-type values up to case. -/
def distinctActionableTypesC (data : List Item) (f : FilterState) : Nat :=
  (dedupByFirst lower ((memoContext4 data f).flatMap
    (fun i => splitTrimFilter semi i.actionable_type))).length

/-- Claim-side: distinct responsible-official values up to case. -/
def distinctOfficialsC (data : List Item) (f : FilterState) : Nat :=
  (dedupByFirst lower ((memoContext4 data f).flatMap
    (fun i => splitTrimFilter semi i.responsible_official))).length

/-- Claim-side: distinct discretion-type values up to case. -/
def distinctDiscretionTypesC (data : List Item) (f : FilterState) : Nat :=
  (dedupByFirst lower ((memoContext4 data f).flatMap
    (fun i => splitTrimFilter semi i.discretion_type))).length

/-- Claim-side: distinct non-empty, non-`'All'` act names in the legacy
context (the count the claim says the `'All'` entry should carry). -/
def distinctNonAllActsA (data : List Item) (fA : FilterStateA) : Nat :=
  (dedupFirst (((dropdownContextData data fA).map (fun i => i.act_name)).filter
    (fun n => decide (n ≠ [] ∧ n ≠ strAll)))).length

/-- The wide-open legacy filter state. -/
def c8fA : FilterStateA :=
  { jurisdiction := strAll, managementDomain := strAll, searchTerm := [],
    actName := strAll, legislationName := strAll }

/-- C8 (counterexample): in the legacy variant (App.tsx lines 98-110),
with two context rows of the same act `"X"`, the `'All'` entry carries
count 2 (the number of candidate rows) while the number of distinct
non-`'All'` act values is 1 — exactly the reading the claim excludes. -/
theorem C8_counterexample :
    (availableActsA [c1Item, c1Item] c8fA).head? = some ⟨strAll, 2⟩ ∧
    distinctNonAllActsA [c1Item, c1Item] c8fA = 1 ∧
    (availableActsA [c1Item, c1Item] c8fA).head? ≠
      some ⟨strAll, distinctNonAllActsA [c1Item, c1Item] c8fA⟩ := by decide

/-- C8 (amended): in the primary variant every option memo's `'All'`
entry counts the distinct values of its dimension in context (exact
values for acts, legislation and clause types; case-insensitive
first-seen casings for actionable types, responsible officials and
discretion types) — never the number of candidate rows.  In the legacy
variant (App.tsx lines 98-110 and 112-128) the `'All'` count is instead
the number of candidate rows. -/
theorem C8_all_option_count_amended (data : List Item) (f : FilterState)
    (fA : FilterStateA) :
    (availableActsC data f).head? =
      some ⟨strAll, lit "None Selected", distinctActsC data f⟩ ∧
    (availableLegislationC data f).head? =
      some ⟨strAll, lit "None Selected", distinctLegsC data f⟩ ∧
    (availableClauseTypesC data f).head? =
      some ⟨strAll, distinctClauseTypesC data f⟩ ∧
    (availableActionableTypesC data f).head? =
      some ⟨strAll, distinctActionableTypesC data f⟩ ∧
    (availableResponsibleOfficialsC data f).head? =
      some ⟨strAll, distinctOfficialsC data f⟩ ∧
    (availableDiscretionTypesC data f).head? =
      some ⟨strAll, distinctDiscretionTypesC data f⟩ ∧
    (availableActsA data fA).head? =
      some ⟨strAll, (dropdownContextData data fA).length⟩ ∧
    (availableLegislationA data fA).head? =
      some ⟨strAll, (legContextA data fA).length⟩ := by
  refine ⟨?_, ?_, ?_, ?_, ?_, ?_, rfl, rfl⟩
  · unfold availableActsC distinctActsC
    simp only [List.map_cons, List.head?_cons, beq_self_eq_true, if_true]
    rw [sortStr_length, tally_keys]
  · unfold availableLegislationC distinctLegsC
    simp only [List.map_cons, List.head?_cons, beq_self_eq_true, if_true]
    rw [sortStr_length, tally_keys]
  · unfold availableClauseTypesC distinctClauseTypesC
    simp only [List.head?_cons]
    rw [sortStr_length, tally_keys]
  · unfold availableActionableTypesC distinctActionableTypesC
    simp only [List.head?_cons]
    rw [sortStr_length, tallyCanon_keys]
  · unfold availableResponsibleOfficialsC distinctOfficialsC
    simp only [List.head?_cons]
    rw [sortStr_length, tallyCanon_keys]
  · unfold availableDiscretionTypesC distinctDiscretionTypesC
    simp only [List.head?_cons]
    rw [sortStr_length, tallyCanon_keys]

/-!
## CSV join (`services/dataService.ts`, `loadLegislationData`)

CSV-parsed rows carry string fields.  `parseInt(s) || 0` is modelled as
radix-10 parsing of an optional sign and leading digits after optional
whitespace, with 0 for a parse failure (`NaN || 0`).  The legislation
`Map` is filled by `set`, so a duplicated id keeps the LAST row, which
the reversed `find?` models.  `console.warn` diagnostics are modelled
as the second component of the result.
-/

/-- A parsed `paragraph_output.csv` row. -/
structure ParagraphRow where
  paragraph_id : Str
  legislation_id : Str
  /-- Source field `section`. -/
  sectionLabel : Str
  heading : Str
  paragraph : Str
  management_domain : Str
  mgmt_d_keyword : Str
  clause_type : Str
  clause_type_keyword : Str
  actionable_type : Str
  responsible_official : Str
  discretion_type : Str
deriving DecidableEq, Repr

/-- A parsed `legislation_output.csv` row. -/
structure LegislationRow where
  legislation_id : Str
  jurisdiction : Str
  legislation_type : Str
  act_name : Str
  legislation_name : Str
  url : Str
  agencies : Str
deriving DecidableEq, Repr

/-- A parsed `iucn_l2_keywords.csv` row. -/
structure IucnRow where
  keyword : Str
  iucn_l2 : Str
deriving DecidableEq, Repr

/-- Decimal value of a digit string. -/
def digitsVal (ds : Str) : Nat :=
  ds.foldl (fun acc c => acc * 10 + (c.toNat - ('0').toNat)) 0

/-- `parseInt(s) || 0` (radix 10). -/
def jsParseIntOr0 (s : Str) : Int :=
  match s.dropWhile isWs with
  | '-' :: rest =>
    let ds := rest.takeWhile (fun c => c.isDigit)
    if ds = [] then 0 else -(digitsVal ds : Int)
  | '+' :: rest =>
    let ds := rest.takeWhile (fun c => c.isDigit)
    if ds = [] then 0 else (digitsVal ds : Int)
  | t =>
    let ds := t.takeWhile (fun c => c.isDigit)
    if ds = [] then 0 else (digitsVal ds : Int)

/-- `legislationMap.get(id)`: last `set` wins. -/
def lookupLeg (legs : List LegislationRow) (k : Str) : Option LegislationRow :=
  legs.reverse.find? (fun r => r.legislation_id == k)

/-- One `iucnKeywordMap.set(keyword.toLowerCase(), iucn_l2)` step. -/
def setIucn (m : List (Str × Str)) (r : IucnRow) : List (Str × Str) :=
  let k := lower r.keyword
  if m.any (fun e => e.1 == k) then
    m.map (fun e => if e.1 == k then (e.1, r.iucn_l2) else e)
  else m ++ [(k, r.iucn_l2)]

/-- The IUCN keyword → L2-category map. -/
def buildIucnMap (rows : List IucnRow) : List (Str × Str) :=
  rows.foldl setIucn []

/-- `extractIucnThreats`: scan the lower-cased body for every map
keyword (lower-cased again by the code), union the matched categories
in first-match order, join with `"; "`. -/
def extractIucnThreats (text : Str) (m : List (Str × Str)) : Str :=
  let lowerText := lower text
  joinSep (lit "; ")
    (dedupFirst ((m.filter (fun e => includesB lowerText (lower e.1))).map
      (fun e => e.2)))

/-- One joined row of `loadLegislationData` (dataService.ts lines
99-140): resolve the legislation record, defaulting every legislation
field when the reference is unresolved. -/
def csvRow (legs : List LegislationRow) (iucnMap : List (Str × Str))
    (index : Nat) (para : ParagraphRow) : Item :=
  let legislation := lookupLeg legs para.legislation_id
  let iucnThreat :=
    if para.paragraph ≠ [] then extractIucnThreats para.paragraph iucnMap else []
  let allKeywords :=
    joinSep (lit "; ")
      (([para.mgmt_d_keyword, para.clause_type_keyword]).filter (fun s => s ≠ []))
  let jRaw := (legislation.map (fun l => l.jurisdiction)).getD []
  { id := (Nat.repr (index + 1)).toList,
    paragraph_id := jsParseIntOr0 para.paragraph_id,
    legislation_id := jsParseIntOr0 para.legislation_id,
    jurisdiction := if jRaw = [] then lit "Federal" else jRaw,
    legislation_type := (legislation.map (fun l => l.legislation_type)).getD [],
    act_name := (legislation.map (fun l => l.act_name)).getD [],
    legislation_name := (legislation.map (fun l => l.legislation_name)).getD [],
    url := (legislation.map (fun l => l.url)).getD [],
    agencies := (legislation.map (fun l => l.agencies)).getD [],
    sectionLabel := para.sectionLabel,
    heading := para.heading,
    paragraph := para.paragraph,
    management_domain := para.management_domain,
    mgmt_d_keyword := para.mgmt_d_keyword,
    clause_type := para.clause_type,
    clause_type_keyword := para.clause_type_keyword,
    actionable_type := para.actionable_type,
    responsible_official := para.responsible_official,
    discretion_type := para.discretion_type,
    iucn_threat := iucnThreat,
    aggregate_keywords := allKeywords }

/-- `loadLegislationData`: one output row per input paragraph
(`paragraphRows.map((para, index) => ...)`), plus the `console.warn`
diagnostics (one per unresolved reference, in batch order). -/
def loadLegislationData (paras : List ParagraphRow) (legs : List LegislationRow)
    (iucn : List IucnRow) : List Item × List Str :=
  let iucnMap := buildIucnMap iucn
  let joined := paras.enum.map (fun ip => csvRow legs iucnMap ip.1 ip.2)
  let warnings :=
    (paras.filter (fun p => (lookupLeg legs p.legislation_id).isNone)).map
      (fun p => lit "No legislation found for paragraph " ++ p.paragraph_id ++
        lit ", legislation_id: " ++ p.legislation_id)
  (joined, warnings)

/-!
## JSON join (`src/unnamed/part_000`, `loadData`, lines 1027-1088)

JSON numeric ids are modelled as `Nat` (the `String(pid)` / `Number(pid)`
conversions are inverse on canonical numerals).
-/

/-- A `legislation` metadata object of the JSON payload. -/
structure LegMetaB where
  jurisdiction : Str
  act_name : Str
  legislation_name : Str
deriving DecidableEq, Repr

/-- A `paragraphs` entry of the JSON payload. -/
structure ParaB where
  legislation_id : Nat
  /-- Source field `section`. -/
  sectionLabel : Str
  heading : Str
  paragraph : Str
deriving DecidableEq, Repr

/-- A `labels` entry (`{pid, type, value, keyword, scope}`). -/
structure LabelRec where
  pid : Nat
  /-- Source field `type` (a Lean keyword, hence the name). -/
  ltype : Str
  value : Str
  keyword : Str
  scope : Str
deriving DecidableEq, Repr

/-- An `actionable` entry. -/
structure ActionB where
  actionable_type : Str
  responsible_official : Str
  discretion_type : Str
deriving DecidableEq, Repr

/-- The JSON variant's `LegislationItem` (types.ts, first interface). -/
structure ItemB where
  id : Str
  jurisdiction : Str
  act_name : Str
  legislation_name : Str
  /-- Source field `section`. -/
  sectionLabel : Str
  heading : Str
  aggregate_paragraph : Str
  management_domain : Str
  iucn_threat : Str
  clause_type : Str
  scope : Str
  management_domain_keywords : Str
  clause_type_keywords : Str
  aggregate_keywords : Str
  actionable_type : Str
  responsible_official : Str
  discretion_type : Str
deriving DecidableEq, Repr

/-- Object lookup on a `Nat`-keyed association list. -/
def lookupNat (m : List (Nat × α)) (k : Nat) : Option α :=
  (m.find? (fun e => e.1 == k)).map (fun e => e.2)

/-- `labelsByParagraph.get(Number(pid)) || []`: the labels of one
paragraph in load order. -/
def labelsFor (labels : List LabelRec) (pid : Nat) : List LabelRec :=
  labels.filter (fun l => l.pid == pid)

/-- The paragraph's assigned management domains:
`Array.from(new Set(labels.filter(type).map(value))).filter(Boolean)`. -/
def paraDomains (paraLabels : List LabelRec) : List Str :=
  (dedupFirst ((paraLabels.filter (fun l => l.ltype == lit "Management Domain")).map
    (fun l => l.value))).filter (fun v => v ≠ [])

/-- One fanned-out row: everything except `id` and `management_domain`
is shared by the whole fan-out of a paragraph. -/
def mkFanRow (startId : Nat) (para : ParaB) (legMeta : LegMetaB)
    (iucnS clauseS scopeS mgmtKw clauseKw : Str) (act : ActionB)
    (jd : Nat × Str) : ItemB :=
  { id := (Nat.repr (startId + jd.1)).toList,
    jurisdiction := legMeta.jurisdiction,
    act_name := legMeta.act_name,
    legislation_name := legMeta.legislation_name,
    sectionLabel := para.sectionLabel,
    heading := para.heading,
    aggregate_paragraph := para.paragraph,
    management_domain := jd.2,
    iucn_threat := iucnS,
    clause_type := clauseS,
    scope := scopeS,
    management_domain_keywords := mgmtKw,
    clause_type_keywords := clauseKw,
    aggregate_keywords := [],
    actionable_type := act.actionable_type,
    responsible_official := act.responsible_official,
    discretion_type := act.discretion_type }

/-- The rows one paragraph contributes (part_000 lines 1034-1087): one
per assigned domain, or a single row with an empty domain when none is
assigned; ids continue the running counter. -/
def rowsForPara (startId : Nat) (pid : Nat) (para : ParaB) (legMeta : LegMetaB)
    (labels : List LabelRec) (actionable : List (Nat × ActionB)) : List ItemB :=
  let paraLabels := labelsFor labels pid
  let managementDomains := paraDomains paraLabels
  let iucnThreats :=
    (dedupFirst ((paraLabels.filter (fun l => l.ltype == lit "IUCN")).map
      (fun l => l.value))).filter (fun v => v ≠ [])
  let clauseTypes :=
    (dedupFirst ((paraLabels.filter (fun l => l.ltype == lit "Clause Type")).map
      (fun l => l.value))).filter (fun v => v ≠ [])
  let scopes :=
    dedupFirst ((paraLabels.map (fun l => trim l.scope)).filter (fun v => v ≠ []))
  let managementKeywords :=
    joinSep (lit "; ")
      (((paraLabels.filter (fun l => l.ltype == lit "Management Domain")).map
        (fun l => trim l.keyword)).filter (fun v => v ≠ []))
  let clauseKeywords :=
    joinSep (lit "; ")
      (((paraLabels.filter (fun l => l.ltype == lit "Clause Type")).map
        (fun l => trim l.keyword)).filter (fun v => v ≠ []))
  let domains := if managementDomains ≠ [] then managementDomains else [[]]
  let act := (lookupNat actionable pid).getD ⟨[], [], []⟩
  domains.enum.map
    (mkFanRow startId para legMeta (joinSep (lit "; ") iucnThreats)
      (joinSep (lit "; ") clauseTypes) (joinSep (lit "; ") scopes)
      managementKeywords clauseKeywords act)

/-- One paragraph step of the JSON join: unresolved legislation ids are
skipped (`if (!legMeta) return`), resolved ones append their fan-out
rows and advance the id counter. -/
def loadDataStep (legislation : List (Nat × LegMetaB)) (labels : List LabelRec)
    (actionable : List (Nat × ActionB)) (acc : List ItemB × Nat)
    (pp : Nat × ParaB) : List ItemB × Nat :=
  match lookupNat legislation pp.2.legislation_id with
  | none => acc
  | some legMeta =>
    let rows := rowsForPara acc.2 pp.1 pp.2 legMeta labels actionable
    (acc.1 ++ rows, acc.2 + rows.length)

/-- The JSON join (`loadData`): fold the paragraph entries with the id
counter starting at 1. -/
def loadDataJoin (legislation : List (Nat × LegMetaB))
    (paragraphs : List (Nat × ParaB)) (labels : List LabelRec)
    (actionable : List (Nat × ActionB)) : List ItemB :=
  (paragraphs.foldl (loadDataStep legislation labels actionable)
    (([] : List ItemB), 1)).1

theorem loadDataStep_skip {legislation : List (Nat × LegMetaB)}
    {labels : List LabelRec} {actionable : List (Nat × ActionB)}
    {acc : List ItemB × Nat} {pp : Nat × ParaB}
    (h : lookupNat legislation pp.2.legislation_id = none) :
    loadDataStep legislation labels actionable acc pp = acc := by
  unfold loadDataStep
  rw [h]

/-- An unresolved paragraph row for the CSV loader. -/
def c3para : ParagraphRow :=
  { paragraph_id := lit "1", legislation_id := lit "99", sectionLabel := [],
    heading := [], paragraph := [], management_domain := [],
    mgmt_d_keyword := [], clause_type := [], clause_type_keyword := [],
    actionable_type := [], responsible_official := [], discretion_type := [] }

/-- C3 (counterexample): with an empty legislation table, the CSV
loader still emits one output row for the unresolved paragraph (with a
diagnostic) — the paragraph is NOT skipped, so not every output row's
legislation id resolves. -/
theorem C3_counterexample :
    lookupLeg [] c3para.legislation_id = none ∧
    (loadLegislationData [c3para] [] []).1.length = 1 ∧
    (loadLegislationData [c3para] [] []).2.length = 1 := by decide

/-- C3 (amended): the two loaders split the claimed behaviour.  The CSV
loader (dataService.ts) emits one output row per input paragraph —
unresolved references included — and one diagnostic per unresolved
reference; the JSON loader (part_000) skips an unresolved paragraph
entirely (no rows, no per-row diagnostic) while the rest of the batch
is processed unchanged. -/
theorem C3_referential_amended (paras : List ParagraphRow)
    (legs : List LegislationRow) (iucn : List IucnRow)
    (legislation : List (Nat × LegMetaB)) (ps1 ps2 : List (Nat × ParaB))
    (pbad : Nat × ParaB) (labels : List LabelRec)
    (actionable : List (Nat × ActionB))
    (hbad : lookupNat legislation pbad.2.legislation_id = none) :
    (loadLegislationData paras legs iucn).1.length = paras.length ∧
    (loadLegislationData paras legs iucn).2.length =
      (paras.filter (fun p => (lookupLeg legs p.legislation_id).isNone)).length ∧
    loadDataJoin legislation (ps1 ++ pbad :: ps2) labels actionable =
      loadDataJoin legislation (ps1 ++ ps2) labels actionable := by
  refine ⟨?_, ?_, ?_⟩
  · unfold loadLegislationData
    simp [List.length_map, List.enum_length]
  · unfold loadLegislationData
    simp [List.length_map]
  · unfold loadDataJoin
    rw [List.foldl_append, List.foldl_append, List.foldl_cons,
      loadDataStep_skip hbad]

/-- A resolving legislation table for the JSON-loader witness. -/
def c3leg : List (Nat × LegMetaB) :=
  [(1, { jurisdiction := lit "Federal", act_name := lit "X",
         legislation_name := lit "X Act" })]

/-- A paragraph resolving against `c3leg`. -/
def c3pGood : ParaB :=
  { legislation_id := 1, sectionLabel := lit "1", heading := [],
    paragraph := lit "text" }

/-- A paragraph whose legislation id does not resolve. -/
def c3pBad : ParaB :=
  { legislation_id := 99, sectionLabel := lit "2", heading := [],
    paragraph := lit "more" }

/-- Witness for the amended C3: the CSV loader keeps the unresolved row
(count 1) and the JSON loader drops the unresolved paragraph while the
resolving one is joined the same either way. -/
theorem C3_referential_amended_witness :
    (loadLegislationData [c3para] [] []).1.length = 1 ∧
    loadDataJoin c3leg ([(10, c3pGood)] ++ (99, c3pBad) :: []) [] [] =
      loadDataJoin c3leg ([(10, c3pGood)] ++ []) [] [] :=
  ⟨(C3_referential_amended [c3para] [] [] c3leg [(10, c3pGood)] []
      ((99, c3pBad)) [] [] (by decide)).1,
    (C3_referential_amended [c3para] [] [] c3leg [(10, c3pGood)] []
      ((99, c3pBad)) [] [] (by decide)).2.2⟩

/-- C10: the CSV join emits a row for EVERY paragraph (output row count
equals input paragraph count), and an unresolved reference yields a row
with jurisdiction defaulted to `'Federal'` and the legislation type,
act name, legislation name, url and agencies all defaulted to the empty
string. -/
theorem C10_unresolved_defaults (paras : List ParagraphRow)
    (legs : List LegislationRow) (iucn : List IucnRow) :
    (loadLegislationData paras legs iucn).1.length = paras.length ∧
    ∀ (i : Nat) (p : ParagraphRow), paras[i]? = some p →
      lookupLeg legs p.legislation_id = none →
      ∃ r, (loadLegislationData paras legs iucn).1[i]? = some r ∧
        r.jurisdiction = lit "Federal" ∧ r.legislation_type = [] ∧
        r.act_name = [] ∧ r.legislation_name = [] ∧ r.url = [] ∧
        r.agencies = [] := by
  constructor
  · unfold loadLegislationData
    simp [List.length_map, List.enum_length]
  · intro i p hp hnone
    refine ⟨csvRow legs (buildIucnMap iucn) i p, ?_, ?_, ?_, ?_, ?_, ?_, ?_⟩
    · show (paras.enum.map _)[i]? = _
      rw [List.getElem?_map, List.getElem?_enum, hp]
      rfl
    · simp [csvRow, hnone]
    · simp [csvRow, hnone]
    · simp [csvRow, hnone]
    · simp [csvRow, hnone]
    · simp [csvRow, hnone]
    · simp [csvRow, hnone]

/-- Witness for C10 at the concrete unresolved batch. -/
theorem C10_unresolved_defaults_witness :
    ∃ r, (loadLegislationData [c3para] [] []).1[0]? = some r ∧
      r.jurisdiction = lit "Federal" ∧ r.legislation_type = [] ∧
      r.act_name = [] ∧ r.legislation_name = [] ∧ r.url = [] ∧
      r.agencies = [] :=
  (C10_unresolved_defaults [c3para] [] []).2 0 c3para (by decide) (by decide)

/-- The `{...r, id := '', management_domain := ''}` projection: what a
fan-out row looks like with the per-row id and domain cleared. -/
def fanoutCore (r : ItemB) : ItemB := { r with id := [], management_domain := [] }

theorem mkFanRow_domains (startId : Nat) (para : ParaB) (legMeta : LegMetaB)
    (iucnS clauseS scopeS mgmtKw clauseKw : Str) (act : ActionB)
    (doms : List Str) :
    (doms.enum.map
        (mkFanRow startId para legMeta iucnS clauseS scopeS mgmtKw clauseKw
          act)).map (fun r => r.management_domain) = doms := by
  rw [List.map_map]
  have hcomp : ((fun r : ItemB => r.management_domain) ∘
      mkFanRow startId para legMeta iucnS clauseS scopeS mgmtKw clauseKw act) =
      Prod.snd := funext fun jd => rfl
  rw [hcomp, List.enum_map_snd]

theorem mkFanRow_ids (startId : Nat) (para : ParaB) (legMeta : LegMetaB)
    (iucnS clauseS scopeS mgmtKw clauseKw : Str) (act : ActionB)
    (doms : List Str) :
    (doms.enum.map
        (mkFanRow startId para legMeta iucnS clauseS scopeS mgmtKw clauseKw
          act)).map (fun r => r.id) =
      (List.range doms.length).map (fun j => (Nat.repr (startId + j)).toList) := by
  rw [List.map_map]
  have hcomp : ((fun r : ItemB => r.id) ∘
      mkFanRow startId para legMeta iucnS clauseS scopeS mgmtKw clauseKw act) =
      ((fun j => (Nat.repr (startId + j)).toList) ∘ Prod.fst) :=
    funext fun jd => rfl
  rw [hcomp, ← List.map_map, List.enum_map_fst]

/-- Labels for the fan-out theorems: paragraph 1 carries domains `A`
and `B` (with `A` repeated), paragraph 2 carries none. -/
def c4labels : List LabelRec :=
  [{ pid := 1, ltype := lit "Management Domain", value := lit "A",
     keyword := lit "k1", scope := lit "s" },
   { pid := 1, ltype := lit "Management Domain", value := lit "B",
     keyword := [], scope := [] },
   { pid := 1, ltype := lit "Management Domain", value := lit "A",
     keyword := [], scope := [] },
   { pid := 2, ltype := lit "IUCN", value := lit "X", keyword := [],
     scope := [] }]

/-- Legislation metadata for the fan-out theorems. -/
def c4meta : LegMetaB :=
  { jurisdiction := lit "Federal", act_name := lit "X",
    legislation_name := lit "X Act" }

/-- A CSV paragraph row with two semicolon-encoded assigned domains. -/
def c4csvPara : ParagraphRow := { c3para with management_domain := lit "A;B" }

/-- C4 (counterexample): the claim fails on both cited joins.  The CSV
join (part_007/dataService `loadLegislationData`) does not fan out: a
paragraph with the two assigned domains `"A;B"` yields exactly ONE
output row carrying the joined string, not two — the output row count
differs from `k`.  And in the JSON join (part_000), the two fan-out
rows of a two-domain paragraph differ in the running `id` field
(`"1"` vs `"2"`) as well, not only in `management_domain`. -/
theorem C4_counterexample :
    (splitTrimFilter semi c4csvPara.management_domain).length = 2 ∧
    (loadLegislationData [c4csvPara] [] []).1.length = 1 ∧
    (loadLegislationData [c4csvPara] [] []).1.length ≠
      (splitTrimFilter semi c4csvPara.management_domain).length ∧
    (loadLegislationData [c4csvPara] [] []).1.map
      (fun r => r.management_domain) = [lit "A;B"] ∧
    (rowsForPara 1 1 c3pGood c4meta c4labels []).map (fun r => r.id) =
      [lit "1", lit "2"] ∧
    (rowsForPara 1 1 c3pGood c4meta c4labels []).map
      (fun r => r.management_domain) = [lit "A", lit "B"] ∧
    lit "1" ≠ lit "2" := by decide

/-- C4 (amended): fan-out happens only in the JSON join.  There, a
paragraph with `k ≥ 1` assigned (distinct, non-empty) management
domains contributes exactly `k` rows whose `management_domain` values
are exactly those domains in order and whose `id` fields are the `k`
consecutive counter values; the rows agree on every field other than
`management_domain` and `id`; a paragraph with no assigned domain
contributes exactly one row with an empty domain.  The CSV join
(part_007/dataService) contributes exactly one row per paragraph,
carrying the paragraph's semicolon-joined domain string unchanged. -/
theorem C4_fanout_amended (startId : Nat) (pid : Nat) (para : ParaB)
    (legMeta : LegMetaB) (labels : List LabelRec)
    (actionable : List (Nat × ActionB)) (paras : List ParagraphRow)
    (legs : List LegislationRow) (iucn : List IucnRow) :
    (paraDomains (labelsFor labels pid) ≠ [] →
      (rowsForPara startId pid para legMeta labels actionable).length =
        (paraDomains (labelsFor labels pid)).length ∧
      (rowsForPara startId pid para legMeta labels actionable).map
        (fun r => r.management_domain) = paraDomains (labelsFor labels pid) ∧
      (rowsForPara startId pid para legMeta labels actionable).map
        (fun r => r.id) =
        (List.range (paraDomains (labelsFor labels pid)).length).map
          (fun j => (Nat.repr (startId + j)).toList) ∧
      ∀ r1 ∈ rowsForPara startId pid para legMeta labels actionable,
        ∀ r2 ∈ rowsForPara startId pid para legMeta labels actionable,
          fanoutCore r1 = fanoutCore r2) ∧
    (paraDomains (labelsFor labels pid) = [] →
      (rowsForPara startId pid para legMeta labels actionable).length = 1 ∧
      (rowsForPara startId pid para legMeta labels actionable).map
        (fun r => r.management_domain) = [[]]) ∧
    ((loadLegislationData paras legs iucn).1.length = paras.length ∧
      ∀ (i : Nat) (p : ParagraphRow), paras[i]? = some p →
        ∃ r, (loadLegislationData paras legs iucn).1[i]? = some r ∧
          r.management_domain = p.management_domain) := by
  refine ⟨?_, ?_, ?_, ?_⟩
  · intro h
    simp only [rowsForPara]
    rw [if_pos h]
    refine ⟨?_, mkFanRow_domains _ _ _ _ _ _ _ _ _ _,
      mkFanRow_ids _ _ _ _ _ _ _ _ _ _, ?_⟩
    · rw [List.length_map, List.enum_length]
    · intro r1 h1 r2 h2
      rcases List.mem_map.mp h1 with ⟨jd1, -, rfl⟩
      rcases List.mem_map.mp h2 with ⟨jd2, -, rfl⟩
      rfl
  · intro h
    simp only [rowsForPara]
    rw [if_neg (fun hc => hc h)]
    exact ⟨rfl, rfl⟩
  · unfold loadLegislationData
    simp [List.length_map, List.enum_length]
  · intro i p hp
    refine ⟨csvRow legs (buildIucnMap iucn) i p, ?_, rfl⟩
    show (paras.enum.map _)[i]? = _
    rw [List.getElem?_map, List.getElem?_enum, hp]
    rfl

/-- Witness for the amended C4: paragraph 1 (domains `{A, B}`, the
duplicate `A` deduplicated) fans out into exactly the domain list
`[A, B]`; paragraph 2 (no domains) contributes exactly one row; and the
CSV join keeps the `"A;B"` paragraph as one row with its domain string
unchanged. -/
theorem C4_fanout_amended_witness :
    (rowsForPara 1 1 c3pGood c4meta c4labels []).map
      (fun r => r.management_domain) = [lit "A", lit "B"] ∧
    (rowsForPara 3 2 c3pGood c4meta c4labels []).length = 1 ∧
    ∃ r, (loadLegislationData [c4csvPara] [] []).1[0]? = some r ∧
      r.management_domain = c4csvPara.management_domain := by
  refine ⟨?_, ?_, ?_⟩
  · have h :=
      ((C4_fanout_amended 1 1 c3pGood c4meta c4labels [] [] [] []).1
        (by decide)).2.1
    rw [h]
    decide
  · exact ((C4_fanout_amended 3 2 c3pGood c4meta c4labels [] [] [] []).2.1
      (by decide)).1
  · exact (C4_fanout_amended 1 1 c3pGood c4meta c4labels [] [c4csvPara] []
      []).2.2.2 0 c4csvPara (by decide)

/-!
## Domain-scoped keyword resolution (`src/unnamed/part_007`,
`filterKeywordsByDomain`, lines 216-247)

The regex `new RegExp("\\b" + escaped(kw.toLowerCase()) + "\\b")`
matches the escaped keyword literally; `\b` holds at a position where
exactly one side is a word character (`[A-Za-z0-9_]`, matching the
ASCII-only JS `\w`), out-of-range counting as a non-word character.
-/

/-- A `governance_keywords.csv` row. -/
structure GovernanceRow where
  management_domain : Str
  keyword : Str
deriving DecidableEq, Repr

/-- One step of the governance-map construction: ensure the lower-cased
domain key exists, then push the keyword onto its list. -/
def addGov (m : List (Str × List Str)) (row : GovernanceRow) :
    List (Str × List Str) :=
  let d := lower row.management_domain
  if m.any (fun e => e.1 == d) then
    m.map (fun e => if e.1 == d then (e.1, e.2 ++ [row.keyword]) else e)
  else m ++ [(d, [row.keyword])]

/-- The governance keyword map (`management_domain.toLowerCase()` →
keyword list). -/
def buildGovernanceMap (rows : List GovernanceRow) : List (Str × List Str) :=
  rows.foldl addGov []

/-- JS `\w`: ASCII letters, digits and underscore. -/
def isWordChar (c : Char) : Bool := c.isAlphanum || c == '_'

/-- Is the character at position `i` a word character (out of range:
no)? -/
def wordAt (t : Str) (i : Nat) : Bool :=
  match t[i]? with
  | some c => isWordChar c
  | none => false

/-- The regex `\b` word boundary at position `i` of `t`. -/
def boundaryAt (t : Str) (i : Nat) : Bool :=
  (if i = 0 then false else wordAt t (i - 1)) != wordAt t i

/-- `new RegExp("\\b" + escaped(kw) + "\\b").test(t)`: some occurrence
of the literal `kw` in `t` flanked by word boundaries. -/
def wholeWordB (kw t : Str) : Bool :=
  (List.range (t.length + 1)).any (fun i =>
    decide (kw <+: t.drop i) && boundaryAt t i && boundaryAt t (i + kw.length))

/-- `filterKeywordsByDomain`: for an unset domain (`''`/`'All'`) or one
with no governance keywords, split/trim/filter the keyword string;
for a governance domain, keep exactly its dictionary keywords occurring
as a whole word (case-insensitively) in the text. -/
def filterKeywordsByDomain (gov : List (Str × List Str))
    (allKeywords text targetDomain : Str) : List Str :=
  if targetDomain = [] ∨ targetDomain = strAll then
    splitTrimFilter semi allKeywords
  else
    match lookupA gov (lower targetDomain) with
    | some domainKeywords =>
      if 0 < domainKeywords.length then
        domainKeywords.filter (fun kw => wholeWordB (lower kw) (lower text))
      else splitTrimFilter semi allKeywords
    | none => splitTrimFilter semi allKeywords

theorem lookupA_mem {α : Type _} {m : List (Str × α)} {k : Str} {v : α}
    (h : lookupA m k = some v) : ∃ e ∈ m, e.2 = v := by
  unfold lookupA at h
  cases hf : m.find? (fun e => e.1 == k) with
  | none =>
    rw [hf] at h
    simp at h
  | some e =>
    rw [hf] at h
    have : e.2 = v := by simpa using h
    exact ⟨e, List.mem_of_find?_eq_some hf, this⟩

theorem addGov_vals_ne_nil {m : List (Str × List Str)} {row : GovernanceRow}
    (hm : ∀ e ∈ m, e.2 ≠ []) : ∀ e ∈ addGov m row, e.2 ≠ [] := by
  unfold addGov
  by_cases h : m.any (fun e => e.1 == lower row.management_domain)
  · rw [if_pos h]
    intro e he
    rcases List.mem_map.mp he with ⟨e0, he0, rfl⟩
    by_cases hk : e0.1 = lower row.management_domain
    · rw [if_pos (by simpa using hk)]
      simp
    · rw [if_neg (by simpa using hk)]
      exact hm e0 he0
  · rw [if_neg h]
    intro e he
    rcases List.mem_append.mp he with he | he
    · exact hm e he
    · rcases List.mem_singleton.mp he with rfl
      simp

/-- Every domain present in the governance map has a non-empty keyword
list: the `length > 0` guard of `filterKeywordsByDomain` cannot fire
for a map built by the loader. -/
theorem buildGovernanceMap_vals_ne_nil (rows : List GovernanceRow) :
    ∀ e ∈ buildGovernanceMap rows, e.2 ≠ [] := by
  suffices h : ∀ m : List (Str × List Str), (∀ e ∈ m, e.2 ≠ []) →
      ∀ e ∈ rows.foldl addGov m, e.2 ≠ [] by
    exact h [] (by simp)
  induction rows with
  | nil => intro m hm; simpa using hm
  | cons r rs ih =>
    intro m hm
    rw [List.foldl_cons]
    exact ih (addGov m r) (addGov_vals_ne_nil hm)

/-- C9: domain-scoped keyword resolution against a loader-built
dictionary.  An unset (`''`/`'All'`) target domain, or one absent from
the dictionary, returns all keywords split on `';'`, trimmed, empties
removed; a domain present in the dictionary returns exactly its
dictionary keywords occurring as a whole word (case-insensitively) in
the text span. -/
theorem C9_domain_scoped_keywords (rows : List GovernanceRow)
    (allKeywords text targetDomain : Str) :
    (targetDomain = [] ∨ targetDomain = strAll →
      filterKeywordsByDomain (buildGovernanceMap rows) allKeywords text
        targetDomain = splitTrimFilter semi allKeywords) ∧
    (lookupA (buildGovernanceMap rows) (lower targetDomain) = none →
      filterKeywordsByDomain (buildGovernanceMap rows) allKeywords text
        targetDomain = splitTrimFilter semi allKeywords) ∧
    (targetDomain ≠ [] → targetDomain ≠ strAll →
      ∀ ks, lookupA (buildGovernanceMap rows) (lower targetDomain) = some ks →
        filterKeywordsByDomain (buildGovernanceMap rows) allKeywords text
          targetDomain =
          ks.filter (fun kw => wholeWordB (lower kw) (lower text))) := by
  refine ⟨?_, ?_, ?_⟩
  · intro h
    unfold filterKeywordsByDomain
    rw [if_pos h]
  · intro h
    unfold filterKeywordsByDomain
    by_cases hd : targetDomain = [] ∨ targetDomain = strAll
    · rw [if_pos hd]
    · rw [if_neg hd, h]
  · intro h1 h2 ks hks
    unfold filterKeywordsByDomain
    rw [if_neg (by rintro (h | h) <;> [exact h1 h; exact h2 h]), hks]
    rcases lookupA_mem hks with ⟨e, he, hev⟩
    have hne : ks ≠ [] := hev ▸ buildGovernanceMap_vals_ne_nil rows e he
    show (if 0 < ks.length then
        ks.filter (fun kw => wholeWordB (lower kw) (lower text))
      else splitTrimFilter semi allKeywords) =
      ks.filter (fun kw => wholeWordB (lower kw) (lower text))
    rw [if_pos (List.length_pos.mpr hne)]

/-- The governance dictionary of the specification's example. -/
def c9rows : List GovernanceRow :=
  [{ management_domain := lit "Fisheries", keyword := lit "spawning" },
   { management_domain := lit "Pollution", keyword := lit "effluent" }]

/-- The text span of the specification's example. -/
def c9text : Str := lit "spawning habitat near effluent discharge"

/-- Witness for C9 at the spec's example: with the dictionary
`{Fisheries: [spawning], Pollution: [effluent]}` and the text
`"spawning habitat near effluent discharge"`, domain `Fisheries`
resolves to `["spawning"]` only — `effluent` occurs in the text but
belongs to another domain. -/
theorem C9_domain_scoped_keywords_witness :
    filterKeywordsByDomain (buildGovernanceMap c9rows)
      (lit "spawning; effluent") c9text (lit "Fisheries") = [lit "spawning"] := by
  have h := (C9_domain_scoped_keywords c9rows (lit "spawning; effluent") c9text
    (lit "Fisheries")).2.2 (by decide) (by decide) [lit "spawning"] (by decide)
  rw [h]
  decide

end LAPSE
